import Mathlib

/-!
Verification of the artemis real-time message/event broker (Go) against its
natural-language specification.  The Go code is shallowly embedded: Go maps
become insertion-ordered association lists (compared extensionally where only
map contents matter), channels become queue references (`Nat`), dynamically
typed `interface\x7b\x7d` values become the inductive `GoVal`, and the effects of
stateful methods become pure state-transforming functions.  Where the Go code
iterates a map (whose iteration order the Go language leaves unspecified), the
observable behaviour is modelled relationally over all permutations.
-/

set_option autoImplicit false

namespace Artemis

/-! ### Association lists modelling Go maps

`lookupA` returns the value bound to a key, `updateA` models the Go map
assignment `m[k] = v` (replacing an existing binding, otherwise appending). -/

def lookupA {κ β : Type} [DecidableEq κ] : List (κ × β) → κ → Option β
  | [], _ => none
  | (k, v) :: rest, key => if k = key then some v else lookupA rest key

def updateA {κ β : Type} [DecidableEq κ] : List (κ × β) → κ → β → List (κ × β)
  | [], key, v => [(key, v)]
  | (k, w) :: rest, key, v =>
      if k = key then (k, v) :: rest else (k, w) :: updateA rest key v

theorem lookupA_updateA_self {κ β : Type} [DecidableEq κ]
    (m : List (κ × β)) (k : κ) (v : β) : lookupA (updateA m k v) k = some v := by
  induction m with
  | nil => simp [updateA, lookupA]
  | cons p rest ih =>
      obtain ⟨k1, w⟩ := p
      by_cases h : k1 = k
      · subst h; simp [updateA, lookupA]
      · simp [updateA, lookupA, h, ih]

theorem lookupA_updateA_ne {κ β : Type} [DecidableEq κ]
    (m : List (κ × β)) (k k' : κ) (v : β) (hne : k' ≠ k) :
    lookupA (updateA m k v) k' = lookupA m k' := by
  have hne' : ¬ k = k' := fun h => hne h.symm
  induction m with
  | nil => simp [updateA, lookupA, hne']
  | cons p rest ih =>
      obtain ⟨k1, w⟩ := p
      by_cases h : k1 = k
      · subst h
        simp [updateA, lookupA, hne']
      · simp [updateA, lookupA, h, ih]

/-! ### Dynamic Go values

Go `interface\x7b\x7d` payloads (event data, sources, recipients).  An agent is
identified by a numeric reference; `agentRef` is the value "pointer to that
agent" used when an event's recipient is the agent itself. -/

inductive GoVal : Type where
  | null
  | vint (n : Int)
  | vstr (s : String)
  | agentRef (r : Nat)
  deriving DecidableEq, Repr

/-! ### Events (src/unnamed/part_000) -/

structure Event where
  Kind : String
  Data : GoVal
  Recipient : GoVal
  Source : GoVal
  deriving DecidableEq, Repr

/-- `EventData` is the basic `DataGetter`; `newEvent` receives `Option EventData`
because the Go argument is a nilable interface. -/
structure EventData where
  data : GoVal
  deriving DecidableEq, Repr

def EventData.Data (ed : EventData) : GoVal := ed.data

def newEvent (kind : String) (data : Option EventData) : Event :=
  { Kind := kind
  , Data := match data with
      | some dg => dg.Data
      | none => GoVal.null
  , Recipient := GoVal.null
  , Source := GoVal.null }

/-! ### Handler sets (src/unnamed/part_000)

`EventHandlerSet` is a Go `map[string]EventHandler` keyed by a string derived
from the handler's identity; the handler's observable identity is exactly that
key, so the set is modelled as the insertion-ordered list of keys.  `Add` is a
no-op (with a duplicate-handler warning) on a present key. -/

abbrev EventHandlerSet := List String

def EventHandlerSet.Add (ehs : EventHandlerSet) (h : String) : EventHandlerSet :=
  if h ∈ ehs then ehs else ehs ++ [h]

def EventHandlerSet.Remove (ehs : EventHandlerSet) (h : String) : EventHandlerSet :=
  ehs.filter (fun k => k ≠ h)

/-! ### Hub (src/hub.go)

A `SubscriptionSet` is a Go set of event channels; channels are identified by
the numeric reference of the agent owning them (the agent/channel relation is
1:1). -/

abbrev SubscriptionSet := List Nat

def SubscriptionSet.Add (ss : SubscriptionSet) (c : Nat) : SubscriptionSet :=
  if c ∈ ss then ss else ss ++ [c]

def SubscriptionSet.Remove (ss : SubscriptionSet) (c : Nat) : SubscriptionSet :=
  ss.filter (fun q => q ≠ c)

structure Hub where
  ID : String
  subscriptions : List (String × SubscriptionSet)
  deriving DecidableEq, Repr

/-- `Hub.subscribe`: create the kind's set if missing, then `Add` (silent on
duplicate). -/
def Hub.subscribe (h : Hub) (kind : String) (c : Nat) : Hub :=
  let subs := match lookupA h.subscriptions kind with
    | none => updateA h.subscriptions kind []
    | some _ => h.subscriptions
  { h with subscriptions :=
      updateA subs kind (SubscriptionSet.Add ((lookupA subs kind).getD []) c) }

/-- `Hub.unsubscribe`: remove the channel from the kind's set when the kind has
an entry; the (possibly now empty) entry itself is kept. -/
def Hub.unsubscribe (h : Hub) (kind : String) (c : Nat) : Hub :=
  match lookupA h.subscriptions kind with
  | none => h
  | some ss =>
      { h with subscriptions := updateA h.subscriptions kind (SubscriptionSet.Remove ss c) }

/-- Queues to which the hub currently routes `kind`. -/
def Hub.subscribedQueues (h : Hub) (kind : String) : SubscriptionSet :=
  (lookupA h.subscriptions kind).getD []

/-! ### Broadcast (src/hub.go lines 189-199)

`Broadcast` loops over the subscribed set; each iteration allocates a fresh
`Event` via `newEvent`, sets its source and sends it on that subscriber's
channel.  Allocation freshness is modelled by tagging each constructed event
with a distinct reference drawn from a counter. -/

structure Send where
  queue : Nat
  evRef : Nat
  event : Event
  deriving DecidableEq, Repr

def broadcastEventValue (eventKind : String) (data : Option EventData)
    (source : GoVal) : Event :=
  { newEvent eventKind data with Source := source }

def broadcastLoop (eventKind : String) (data : Option EventData) (source : GoVal) :
    List Nat → Nat → List Send
  | [], _ => []
  | q :: qs, base =>
      { queue := q, evRef := base, event := broadcastEventValue eventKind data source }
        :: broadcastLoop eventKind data source qs (base + 1)

structure BroadcastResult where
  sends : List Send
  warned : Bool
  deriving DecidableEq, Repr

/-- `Hub.Broadcast`: if the kind has an entry in the subscription map, send one
freshly constructed event to every queue in that entry; otherwise emit the
asynchronous "no one was listening" warning.  It never returns an error. -/
def Hub.Broadcast (h : Hub) (eventKind : String) (data : Option EventData)
    (source : GoVal) (base : Nat) : BroadcastResult :=
  match lookupA h.subscriptions eventKind with
  | some subscribers =>
      { sends := broadcastLoop eventKind data source subscribers base, warned := false }
  | none => { sends := [], warned := true }

/-! ### Event agent (src/unnamed/part_000)

`ref` is the agent's identity and doubles as the reference of its `events`
channel (the relation between an agent and its channel is 1:1 in the source).
`ready` models the "listening started" flag set by the lazily started dispatch
task. -/

structure EventAgent where
  ref : Nat
  Delegate : Option GoVal
  ready : Bool
  subscriptions : List (String × EventHandlerSet)
  deriving DecidableEq, Repr

/-- Handlers registered on the agent for a kind (empty when the kind has no
entry), in registration order. -/
def handlersFor (agent : EventAgent) (kind : String) : EventHandlerSet :=
  (lookupA agent.subscriptions kind).getD []

/-- The `if _, ok := m[kind]; !ok \x7b m[kind] = make(...) \x7d; m[kind].Add(hdl)`
idiom shared by the event agent's `Subscribe` and the family subscription
registration: create the kind's handler set if missing, then `Add`. -/
def handlerMapAdd (m : List (String × EventHandlerSet)) (kind hdl : String) :
    List (String × EventHandlerSet) :=
  let m1 := match lookupA m kind with
    | none => updateA m kind []
    | some _ => m
  updateA m1 kind (EventHandlerSet.Add ((lookupA m1 kind).getD []) hdl)

/-- `EventAgent.Subscribe`: lazily start the dispatch task (which sets `ready`),
create the kind's handler set if missing, `Add` the handler (warning on
duplicate), and subscribe the agent's channel to the kind on the hub. -/
def EventAgent.Subscribe (agent : EventAgent) (hub : Hub) (kind : String)
    (hdl : String) : Hub × EventAgent :=
  let agent := { agent with ready := true }
  let agent := { agent with subscriptions := handlerMapAdd agent.subscriptions kind hdl }
  (hub.subscribe kind agent.ref, agent)

/-- `EventAgent.Unsubscribe`: remove the handler from the kind's set when
present, then unconditionally ask the hub to stop routing the kind to the
agent's channel. -/
def EventAgent.Unsubscribe (agent : EventAgent) (hub : Hub) (kind : String)
    (hdl : String) : Hub × EventAgent :=
  let agent := match lookupA agent.subscriptions kind with
    | some actions =>
        { agent with
          subscriptions := updateA agent.subscriptions kind (EventHandlerSet.Remove actions hdl) }
    | none => agent
  (hub.unsubscribe kind agent.ref, agent)

/-! ### Dispatch (src/unnamed/part_000, `EventAgent.listen`)

For each event taken off the queue the task sets the recipient (delegate when
configured, else the agent itself), then runs `for _, do := range actions` over
the Go map of handlers for the event's kind.  Go specifies no iteration order
for maps, so an invocation sequence is admissible exactly when it invokes the
registered handlers in some order, each once, each receiving the
recipient-updated event. -/

def recipientOf (agent : EventAgent) : GoVal :=
  match agent.Delegate with
  | some d => d
  | none => GoVal.agentRef agent.ref

def deliveredEvent (agent : EventAgent) (ev : Event) : Event :=
  { ev with Recipient := recipientOf agent }

def DispatchSeq (agent : EventAgent) (ev : Event) (seq : List (String × Event)) : Prop :=
  (seq.map Prod.fst).Perm (handlersFor agent ev.Kind) ∧
    ∀ p ∈ seq, p.2 = deliveredEvent agent ev

instance (agent : EventAgent) (ev : Event) (seq : List (String × Event)) :
    Decidable (DispatchSeq agent ev seq) := by
  unfold DispatchSeq
  infer_instance

/-! ### Hub registry (src/hub.go lines 9-20, 100-126)

The package-level state: the `hubs` map, the lazily created `defaultHub`
package variable, and — to express instance identity — the list `alloc` of all
`Hub` instances ever allocated (reference paired with the `ID` stored in the
instance), with a counter supplying fresh references. -/

def defaultHubID : String := "artemis:DefaultHub:74157a9f-9fd2-4030-b704-f3ce20eb6df7"

structure HubRegistry where
  counter : Nat
  alloc : List (Nat × String)
  hubs : List (String × Nat)
  defaultHub : Option Nat
  deriving DecidableEq, Repr

def initRegistry : HubRegistry :=
  { counter := 0, alloc := [], hubs := [], defaultHub := none }

structure NewHubResult where
  state : HubRegistry
  hub : Nat
  err : Option Unit
  deriving DecidableEq, Repr

/-- `NewHub`: when the id is registered, return the registered hub together
with `ErrDuplicateHubID` (state untouched); otherwise allocate a fresh hub
carrying the id, register it and return it without error. -/
def NewHub (s : HubRegistry) (id : String) : NewHubResult :=
  match lookupA s.hubs id with
  | some h => { state := s, hub := h, err := some () }
  | none =>
      { state :=
          { counter := s.counter + 1
          , alloc := s.alloc ++ [(s.counter, id)]
          , hubs := updateA s.hubs id s.counter
          , defaultHub := s.defaultHub }
      , hub := s.counter
      , err := none }

/-- `DefaultHub`: lazily allocate the default hub on first call; it is stored
in the package variable only — it is never entered into the `hubs` registry. -/
def DefaultHub (s : HubRegistry) : HubRegistry × Nat :=
  match s.defaultHub with
  | some h => (s, h)
  | none =>
      ({ counter := s.counter + 1
       , alloc := s.alloc ++ [(s.counter, defaultHubID)]
       , hubs := s.hubs
       , defaultHub := some s.counter }, s.counter)

inductive HubOp : Type where
  | newHub (id : String)
  | defaultHub
  deriving DecidableEq, Repr

def stepHub (s : HubRegistry) : HubOp → HubRegistry
  | .newHub id => (NewHub s id).state
  | .defaultHub => (DefaultHub s).1

def runHubOps (ops : List HubOp) : HubRegistry :=
  ops.foldl stepHub initRegistry

/-! ### Supporting lemmas -/

theorem broadcastLoop_map_queue (kind : String) (data : Option EventData) (src : GoVal)
    (qs : List Nat) (base : Nat) :
    (broadcastLoop kind data src qs base).map Send.queue = qs := by
  induction qs generalizing base with
  | nil => rfl
  | cons q rest ih => simp [broadcastLoop, ih]

theorem broadcastLoop_event (kind : String) (data : Option EventData) (src : GoVal)
    (qs : List Nat) (base : Nat) :
    ∀ s ∈ broadcastLoop kind data src qs base, s.event = broadcastEventValue kind data src := by
  induction qs generalizing base with
  | nil => intro s hs; simp [broadcastLoop] at hs
  | cons q rest ih =>
      intro s hs
      simp only [broadcastLoop, List.mem_cons] at hs
      rcases hs with h | h
      · rw [h]
      · exact ih (base + 1) s h

theorem broadcastLoop_filter_length (kind : String) (data : Option EventData) (src : GoVal)
    (qs : List Nat) (base : Nat) (r : Nat) :
    ((broadcastLoop kind data src qs base).filter (fun s => s.queue = r)).length
      = qs.count r := by
  induction qs generalizing base with
  | nil => rfl
  | cons q rest ih =>
      by_cases h : q = r
      · subst h
        simp [broadcastLoop, List.filter, List.count_cons, ih]
      · simp [broadcastLoop, List.filter, List.count_cons, h, ih]

theorem broadcastLoop_ref_ge (kind : String) (data : Option EventData) (src : GoVal)
    (qs : List Nat) (base : Nat) :
    ∀ s ∈ broadcastLoop kind data src qs base, base ≤ s.evRef := by
  induction qs generalizing base with
  | nil => intro s hs; simp [broadcastLoop] at hs
  | cons q rest ih =>
      intro s hs
      simp only [broadcastLoop, List.mem_cons] at hs
      rcases hs with h | h
      · rw [h]
      · exact Nat.le_of_succ_le (ih (base + 1) s h)

theorem count_setAdd {α : Type} [DecidableEq α] (l : List α) (a : α) (hl : l.Nodup) :
    (if a ∈ l then l else l ++ [a]).count a = 1 := by
  by_cases h : a ∈ l
  · simp only [h, if_true]
    exact List.count_eq_one_of_mem hl h
  · simp [h, List.count_append, List.count_eq_zero_of_not_mem h]

theorem lookup_subscribe_self (hub : Hub) (kind : String) (c : Nat) :
    lookupA (hub.subscribe kind c).subscriptions kind
      = some (SubscriptionSet.Add (hub.subscribedQueues kind) c) := by
  unfold Hub.subscribe Hub.subscribedQueues
  cases h : lookupA hub.subscriptions kind with
  | none => simp [h, lookupA_updateA_self]
  | some ss => simp [h, lookupA_updateA_self]

theorem lookup_subscribe_ne (hub : Hub) (kind : String) (c : Nat) (k' : String)
    (hne : k' ≠ kind) :
    lookupA (hub.subscribe kind c).subscriptions k' = lookupA hub.subscriptions k' := by
  unfold Hub.subscribe
  cases h : lookupA hub.subscriptions kind with
  | none =>
      simp only []
      rw [lookupA_updateA_ne _ _ _ _ hne, lookupA_updateA_ne _ _ _ _ hne]
  | some ss =>
      simp only []
      rw [lookupA_updateA_ne _ _ _ _ hne]

theorem lookupA_handlerMapAdd_self (m : List (String × EventHandlerSet))
    (kind hdl : String) :
    lookupA (handlerMapAdd m kind hdl) kind
      = some (EventHandlerSet.Add ((lookupA m kind).getD []) hdl) := by
  unfold handlerMapAdd
  cases h : lookupA m kind with
  | none => simp [h, lookupA_updateA_self]
  | some hs => simp [h, lookupA_updateA_self]

theorem lookupA_handlerMapAdd_ne (m : List (String × EventHandlerSet))
    (kind hdl k' : String) (hne : k' ≠ kind) :
    lookupA (handlerMapAdd m kind hdl) k' = lookupA m k' := by
  unfold handlerMapAdd
  cases h : lookupA m kind with
  | none =>
      simp only []
      rw [lookupA_updateA_ne _ _ _ _ hne, lookupA_updateA_ne _ _ _ _ hne]
  | some hs =>
      simp only []
      rw [lookupA_updateA_ne _ _ _ _ hne]

theorem handlersFor_subscribe_self (agent : EventAgent) (hub : Hub) (kind hdl : String) :
    handlersFor (agent.Subscribe hub kind hdl).2 kind
      = EventHandlerSet.Add (handlersFor agent kind) hdl := by
  unfold EventAgent.Subscribe handlersFor
  simp [lookupA_handlerMapAdd_self]

theorem subscribe_agent_ref (agent : EventAgent) (hub : Hub) (kind hdl : String) :
    (agent.Subscribe hub kind hdl).2.ref = agent.ref := rfl

theorem subscribe_hub_eq (agent : EventAgent) (hub : Hub) (kind hdl : String) :
    (agent.Subscribe hub kind hdl).1 = hub.subscribe kind agent.ref := rfl

theorem filter_fst_length_eq_count (seq : List (String × Event)) (hk : String) :
    (seq.filter (fun p => p.1 = hk)).length = (seq.map Prod.fst).count hk := by
  induction seq with
  | nil => rfl
  | cons p rest ih =>
      by_cases h : p.1 = hk
      · simp [List.filter, List.count_cons, h, ih]
      · simp [List.filter, List.count_cons, h, ih]

/-! ### Claim theorems -/

/-- Claim C2 (counterexample): a hub on which a queue subscribed to kind `k`
and then unsubscribed retains an empty entry for `k`; no queue is subscribed
to `k`, yet `Broadcast` of `k` emits no warning (and sends nothing), contrary
to the claim that a broadcast with no subscribed queue reports a warning. -/
theorem C2_counterexample :
    (Hub.unsubscribe (Hub.subscribe ⟨"h", []⟩ "k" 0) "k" 0).subscribedQueues "k" = [] ∧
    ((Hub.unsubscribe (Hub.subscribe ⟨"h", []⟩ "k" 0) "k" 0).Broadcast
        "k" none GoVal.null 0).warned = false ∧
    ((Hub.unsubscribe (Hub.subscribe ⟨"h", []⟩ "k" 0) "k" 0).Broadcast
        "k" none GoVal.null 0).sends = [] := by
  decide

/-- Claim C2 (amended): `Broadcast(kind, data, source)` enqueues one freshly
constructed event carrying the kind and the source onto every queue currently
subscribed to the kind, and never returns or raises an error; the non-fatal
asynchronous warning is reported exactly when the kind has no entry at all in
the hub's subscription map — an entry that exists but holds no queues (as left
behind by unsubscription) produces neither sends nor a warning. -/
theorem C2_broadcast_behaviour (h : Hub) (kind : String) (data : Option EventData)
    (src : GoVal) (base : Nat) :
    ((h.Broadcast kind data src base).warned = true ↔ lookupA h.subscriptions kind = none) ∧
    ((h.Broadcast kind data src base).sends.map Send.queue = h.subscribedQueues kind) ∧
    (∀ s ∈ (h.Broadcast kind data src base).sends,
        s.event = broadcastEventValue kind data src ∧ s.event.Kind = kind ∧
          s.event.Source = src) := by
  unfold Hub.Broadcast Hub.subscribedQueues
  cases hs : lookupA h.subscriptions kind with
  | none => simp
  | some ss =>
      refine ⟨by simp, by simp [broadcastLoop_map_queue], ?_⟩
      intro s hmem
      have he := broadcastLoop_event kind data src ss base s hmem
      exact ⟨he, by rw [he]; rfl, by rw [he]; rfl⟩

/-- Claim C2 (witness for the amended theorem): concrete evaluation on a hub
with one queue subscribed to kind `k`. -/
theorem C2_broadcast_behaviour_witness :
    ((Hub.Broadcast ⟨"h", [("k", [5])]⟩ "k" (some ⟨GoVal.vint 3⟩) (GoVal.vstr "c") 0).warned
        = true ↔ lookupA (Hub.subscriptions ⟨"h", [("k", [5])]⟩) "k" = none) ∧
    ((Hub.Broadcast ⟨"h", [("k", [5])]⟩ "k" (some ⟨GoVal.vint 3⟩) (GoVal.vstr "c") 0).sends.map
        Send.queue = Hub.subscribedQueues ⟨"h", [("k", [5])]⟩ "k") ∧
    (∀ s ∈ (Hub.Broadcast ⟨"h", [("k", [5])]⟩ "k" (some ⟨GoVal.vint 3⟩) (GoVal.vstr "c") 0).sends,
        s.event = broadcastEventValue "k" (some ⟨GoVal.vint 3⟩) (GoVal.vstr "c") ∧
          s.event.Kind = "k" ∧ s.event.Source = GoVal.vstr "c") :=
  C2_broadcast_behaviour ⟨"h", [("k", [5])]⟩ "k" (some ⟨GoVal.vint 3⟩) (GoVal.vstr "c") 0

/-- Claim C8: `EventAgent.Unsubscribe(kind, handler)` removes the handler from
the agent's handler set for the kind, unconditionally removes the agent's
queue from the hub's subscription set for the kind (other handlers for the
kind remain registered on the agent), and leaves the hub's subscription
entries for every other kind unchanged. -/
theorem C8_unsubscribe (hub : Hub) (agent : EventAgent) (kind hdl : String) :
    hdl ∉ handlersFor (agent.Unsubscribe hub kind hdl).2 kind ∧
    agent.ref ∉ ((agent.Unsubscribe hub kind hdl).1.subscribedQueues kind) ∧
    (∀ g ∈ handlersFor agent kind, g ≠ hdl →
        g ∈ handlersFor (agent.Unsubscribe hub kind hdl).2 kind) ∧
    (∀ k', k' ≠ kind →
        lookupA (agent.Unsubscribe hub kind hdl).1.subscriptions k'
          = lookupA hub.subscriptions k') := by
  unfold EventAgent.Unsubscribe
  refine ⟨?_, ?_, ?_, ?_⟩
  · cases ha : lookupA agent.subscriptions kind with
    | none => simp [handlersFor, ha]
    | some actions =>
        simp [handlersFor, ha, lookupA_updateA_self, EventHandlerSet.Remove, List.mem_filter]
  · cases ha : lookupA agent.subscriptions kind with
    | none =>
        cases hh : lookupA hub.subscriptions kind with
        | none => simp [ha, Hub.unsubscribe, Hub.subscribedQueues, hh]
        | some ss =>
            simp [ha, Hub.unsubscribe, Hub.subscribedQueues, hh, lookupA_updateA_self,
              SubscriptionSet.Remove, List.mem_filter]
    | some actions =>
        cases hh : lookupA hub.subscriptions kind with
        | none => simp [ha, Hub.unsubscribe, Hub.subscribedQueues, hh]
        | some ss =>
            simp [ha, Hub.unsubscribe, Hub.subscribedQueues, hh, lookupA_updateA_self,
              SubscriptionSet.Remove, List.mem_filter]
  · intro g hg hgne
    cases ha : lookupA agent.subscriptions kind with
    | none => simp [handlersFor, ha] at hg
    | some actions =>
        simp only [handlersFor, ha, Option.getD_some] at hg
        simp [handlersFor, ha, lookupA_updateA_self, EventHandlerSet.Remove,
          List.mem_filter, hg, hgne]
  · intro k' hne
    cases ha : lookupA agent.subscriptions kind with
    | none =>
        cases hh : lookupA hub.subscriptions kind with
        | none => simp [ha, Hub.unsubscribe, hh]
        | some ss => simp [ha, Hub.unsubscribe, hh, lookupA_updateA_ne _ _ _ _ hne]
    | some actions =>
        cases hh : lookupA hub.subscriptions kind with
        | none => simp [ha, Hub.unsubscribe, hh]
        | some ss => simp [ha, Hub.unsubscribe, hh, lookupA_updateA_ne _ _ _ _ hne]

/-- Claim C8 (witness): concrete evaluation on an agent holding two handlers
for kind `k` — the hub stops routing `k` to the agent even though handler `g`
remains registered, and the entry for kind `other` is untouched. -/
theorem C8_unsubscribe_witness :
    "h" ∉ handlersFor (EventAgent.Unsubscribe ⟨7, none, true, [("k", ["h", "g"])]⟩
        ⟨"H", [("k", [7]), ("other", [7])]⟩ "k" "h").2 "k" ∧
    EventAgent.ref ⟨7, none, true, [("k", ["h", "g"])]⟩ ∉
      ((EventAgent.Unsubscribe ⟨7, none, true, [("k", ["h", "g"])]⟩
          ⟨"H", [("k", [7]), ("other", [7])]⟩ "k" "h").1.subscribedQueues "k") ∧
    (∀ g ∈ handlersFor ⟨7, none, true, [("k", ["h", "g"])]⟩ "k", g ≠ "h" →
        g ∈ handlersFor (EventAgent.Unsubscribe ⟨7, none, true, [("k", ["h", "g"])]⟩
            ⟨"H", [("k", [7]), ("other", [7])]⟩ "k" "h").2 "k") ∧
    (∀ k', k' ≠ "k" →
        lookupA (EventAgent.Unsubscribe ⟨7, none, true, [("k", ["h", "g"])]⟩
            ⟨"H", [("k", [7]), ("other", [7])]⟩ "k" "h").1.subscriptions k'
          = lookupA (Hub.subscriptions ⟨"H", [("k", [7]), ("other", [7])]⟩) k') :=
  C8_unsubscribe ⟨"H", [("k", [7]), ("other", [7])]⟩ ⟨7, none, true, [("k", ["h", "g"])]⟩ "k" "h"

/-- Claim C9: every iteration of the broadcast loop allocates a fresh `Event`
(`newEvent` is called once per subscriber), so the events sent within one
broadcast are pairwise distinct allocations — later recipient assignment on
one agent's event cannot alter the event any other agent received. -/
theorem C9_broadcast_fresh_events (kind : String) (data : Option EventData)
    (src : GoVal) (qs : List Nat) (base : Nat) :
    List.Pairwise (fun s1 s2 => s1.evRef ≠ s2.evRef)
      (broadcastLoop kind data src qs base) := by
  induction qs generalizing base with
  | nil => exact List.Pairwise.nil
  | cons q rest ih =>
      refine List.Pairwise.cons ?_ (ih (base + 1))
      intro s hs
      have := broadcastLoop_ref_ge kind data src rest (base + 1) s hs
      simp only []
      omega

/-- Claim C1: subscribing handler `hk` to kind `k` on an agent and then
broadcasting `k` with data `d` on the hub puts exactly one event on the
agent's queue, and every admissible dispatch of that event invokes `hk`
exactly once, with the received event's data equal to `d`. -/
theorem C1_subscribe_broadcast_once (hub : Hub) (agent : EventAgent)
    (k hk : String) (d : GoVal) (src : GoVal) (base : Nat)
    (hhub : (hub.subscribedQueues k).Nodup)
    (hag : (handlersFor agent k).Nodup) :
    ((((agent.Subscribe hub k hk).1.Broadcast k (some ⟨d⟩) src base).sends.filter
        (fun s => s.queue = agent.ref)).length = 1) ∧
    (∀ s ∈ ((agent.Subscribe hub k hk).1.Broadcast k (some ⟨d⟩) src base).sends,
        s.event = broadcastEventValue k (some ⟨d⟩) src) ∧
    (∀ seq, DispatchSeq (agent.Subscribe hub k hk).2
        (broadcastEventValue k (some ⟨d⟩) src) seq →
      (seq.filter (fun p => p.1 = hk)).length = 1 ∧ ∀ p ∈ seq, p.2.Data = d) := by
  have h1 : lookupA ((hub.subscribe k agent.ref).subscriptions) k
      = some (SubscriptionSet.Add (hub.subscribedQueues k) agent.ref) :=
    lookup_subscribe_self hub k agent.ref
  refine ⟨?_, ?_, ?_⟩
  · simp only [subscribe_hub_eq, Hub.Broadcast, h1]
    rw [broadcastLoop_filter_length]
    unfold SubscriptionSet.Add
    exact count_setAdd _ _ hhub
  · intro s hs
    simp only [subscribe_hub_eq, Hub.Broadcast, h1] at hs
    exact broadcastLoop_event _ _ _ _ _ s hs
  · intro seq hseq
    obtain ⟨hperm, hrec⟩ := hseq
    constructor
    · rw [filter_fst_length_eq_count]
      have hkind : (broadcastEventValue k (some ⟨d⟩) src).Kind = k := rfl
      rw [hperm.count_eq hk, hkind, handlersFor_subscribe_self]
      unfold EventHandlerSet.Add
      exact count_setAdd _ _ hag
    · intro p hp
      rw [hrec p hp]
      rfl

/-- Claim C1 (witness): concrete evaluation with an initially empty hub and
agent, kind `k`, handler `h`, data `7`. -/
theorem C1_subscribe_broadcast_once_witness :
    ((((EventAgent.Subscribe ⟨0, none, false, []⟩ ⟨"H", []⟩ "k" "h").1.Broadcast
        "k" (some ⟨GoVal.vint 7⟩) GoVal.null 0).sends.filter
        (fun s => s.queue = EventAgent.ref ⟨0, none, false, []⟩)).length = 1) ∧
    (∀ s ∈ ((EventAgent.Subscribe ⟨0, none, false, []⟩ ⟨"H", []⟩ "k" "h").1.Broadcast
        "k" (some ⟨GoVal.vint 7⟩) GoVal.null 0).sends,
        s.event = broadcastEventValue "k" (some ⟨GoVal.vint 7⟩) GoVal.null) ∧
    (∀ seq, DispatchSeq (EventAgent.Subscribe ⟨0, none, false, []⟩ ⟨"H", []⟩ "k" "h").2
        (broadcastEventValue "k" (some ⟨GoVal.vint 7⟩) GoVal.null) seq →
      (seq.filter (fun p => p.1 = "h")).length = 1 ∧
        ∀ p ∈ seq, p.2.Data = GoVal.vint 7) :=
  C1_subscribe_broadcast_once ⟨"H", []⟩ ⟨0, none, false, []⟩ "k" "h"
    (GoVal.vint 7) GoVal.null 0 (by decide) (by decide)

/-- Claim C4 (counterexample): the dispatch loop `for _, do := range actions`
ranges over a Go map, whose iteration order is unspecified; for an agent with
two handlers registered for kind `a` in the order `h1`, `h2`, the reversed
invocation sequence is an admissible dispatch, so handlers are not guaranteed
to be invoked in registration order. -/
theorem C4_counterexample :
    DispatchSeq ⟨0, none, true, [("a", ["h1", "h2"])]⟩
      ⟨"a", GoVal.null, GoVal.null, GoVal.null⟩
      [("h2", ⟨"a", GoVal.null, GoVal.agentRef 0, GoVal.null⟩),
       ("h1", ⟨"a", GoVal.null, GoVal.agentRef 0, GoVal.null⟩)] ∧
    [("h2", Event.mk "a" GoVal.null (GoVal.agentRef 0) GoVal.null),
       ("h1", Event.mk "a" GoVal.null (GoVal.agentRef 0) GoVal.null)].map Prod.fst
      ≠ handlersFor ⟨0, none, true, [("a", ["h1", "h2"])]⟩ "a" := by
  constructor
  · constructor
    · decide
    · decide
  · decide

/-- Claim C4 (amended): for every event taken from the queue, the dispatch
task sets the event's recipient to the agent's delegate if one is configured
and to the agent itself otherwise, and synchronously invokes every handler
registered for the event's kind exactly once (handlers of other kinds are not
invoked); the invocation order is the Go map's unspecified iteration order and
need not be the registration order. -/
theorem C4_dispatch (agent : EventAgent) (ev : Event) (seq : List (String × Event))
    (hnd : (handlersFor agent ev.Kind).Nodup) (hd : DispatchSeq agent ev seq) :
    (∀ hdl, (seq.map Prod.fst).count hdl
        = if hdl ∈ handlersFor agent ev.Kind then 1 else 0) ∧
    (∀ p ∈ seq, p.2.Recipient = recipientOf agent ∧ p.2.Kind = ev.Kind ∧
        p.2.Data = ev.Data ∧ p.2.Source = ev.Source) := by
  obtain ⟨hperm, hrec⟩ := hd
  constructor
  · intro hdl
    rw [hperm.count_eq hdl]
    by_cases h : hdl ∈ handlersFor agent ev.Kind
    · simp [h, List.count_eq_one_of_mem hnd h]
    · simp [h, List.count_eq_zero_of_not_mem h]
  · intro p hp
    rw [hrec p hp]
    exact ⟨rfl, rfl, rfl, rfl⟩

/-- Claim C4 (witness for the amended theorem): an agent with a configured
delegate and one handler for kind `a`. -/
theorem C4_dispatch_witness :
    (∀ hdl, ([("h1", Event.mk "a" (GoVal.vint 2) (GoVal.vstr "del") (GoVal.vstr "s"))].map
        Prod.fst).count hdl
      = if hdl ∈ handlersFor ⟨1, some (GoVal.vstr "del"), true, [("a", ["h1"])]⟩
          (Event.Kind ⟨"a", GoVal.vint 2, GoVal.null, GoVal.vstr "s"⟩) then 1 else 0) ∧
    (∀ p ∈ [("h1", Event.mk "a" (GoVal.vint 2) (GoVal.vstr "del") (GoVal.vstr "s"))],
        (Prod.snd p).Recipient = recipientOf ⟨1, some (GoVal.vstr "del"), true, [("a", ["h1"])]⟩ ∧
        (Prod.snd p).Kind = Event.Kind ⟨"a", GoVal.vint 2, GoVal.null, GoVal.vstr "s"⟩ ∧
        (Prod.snd p).Data = Event.Data ⟨"a", GoVal.vint 2, GoVal.null, GoVal.vstr "s"⟩ ∧
        (Prod.snd p).Source = Event.Source ⟨"a", GoVal.vint 2, GoVal.null, GoVal.vstr "s"⟩) :=
  C4_dispatch ⟨1, some (GoVal.vstr "del"), true, [("a", ["h1"])]⟩
    ⟨"a", GoVal.vint 2, GoVal.null, GoVal.vstr "s"⟩
    [("h1", Event.mk "a" (GoVal.vint 2) (GoVal.vstr "del") (GoVal.vstr "s"))]
    (by decide) (by constructor <;> decide)

/-- Registry invariant: a non-default id has at most one hub instance carrying
it, and none at all while the id is unregistered. -/
def RegInv (s : HubRegistry) : Prop :=
  ∀ id : String, id ≠ defaultHubID →
    (lookupA s.hubs id = none → s.alloc.filter (fun p => p.2 = id) = []) ∧
    (s.alloc.filter (fun p => p.2 = id)).length ≤ 1

theorem regInv_step (s : HubRegistry) (op : HubOp) (h : RegInv s) :
    RegInv (stepHub s op) := by
  cases op with
  | newHub id' =>
      cases hl : lookupA s.hubs id' with
      | some hb =>
          have hstep : stepHub s (HubOp.newHub id') = s := by
            simp [stepHub, NewHub, hl]
          rw [hstep]
          exact h
      | none =>
          have hstep : stepHub s (HubOp.newHub id')
              = { counter := s.counter + 1, alloc := s.alloc ++ [(s.counter, id')]
                , hubs := updateA s.hubs id' s.counter, defaultHub := s.defaultHub } := by
            simp [stepHub, NewHub, hl]
          rw [hstep]
          intro id hid
          obtain ⟨h1, h2⟩ := h id hid
          by_cases he : id' = id
          · subst he
            constructor
            · intro hlook
              rw [lookupA_updateA_self] at hlook
              exact absurd hlook (by simp)
            · rw [List.filter_append, h1 hl]
              simp
          · have hne1 : id ≠ id' := fun hh => he hh.symm
            have hf : List.filter (fun p => decide (p.2 = id)) (s.alloc ++ [(s.counter, id')])
                = List.filter (fun p => decide (p.2 = id)) s.alloc := by
              simp [List.filter_append, he]
            constructor
            · intro hlook
              rw [lookupA_updateA_ne _ _ _ _ hne1] at hlook
              rw [hf]
              exact h1 hlook
            · rw [hf]
              exact h2
  | defaultHub =>
      cases hd : s.defaultHub with
      | some hb =>
          have hstep : stepHub s HubOp.defaultHub = s := by
            simp [stepHub, DefaultHub, hd]
          rw [hstep]
          exact h
      | none =>
          have hstep : stepHub s HubOp.defaultHub
              = { counter := s.counter + 1, alloc := s.alloc ++ [(s.counter, defaultHubID)]
                , hubs := s.hubs, defaultHub := some s.counter } := by
            simp [stepHub, DefaultHub, hd]
          rw [hstep]
          intro id hid
          obtain ⟨h1, h2⟩ := h id hid
          have hne2 : ¬ (defaultHubID = id) := fun hh => hid hh.symm
          have hf : List.filter (fun p => decide (p.2 = id)) (s.alloc ++ [(s.counter, defaultHubID)])
              = List.filter (fun p => decide (p.2 = id)) s.alloc := by
            simp [List.filter_append, hne2]
          rw [hf]
          exact ⟨h1, h2⟩

theorem regInv_run (ops : List HubOp) : RegInv (runHubOps ops) := by
  have base : RegInv initRegistry := by
    intro id hid
    exact ⟨fun _ => rfl, by simp [initRegistry]⟩
  have gen : ∀ (l : List HubOp) (s : HubRegistry), RegInv s → RegInv (l.foldl stepHub s) := by
    intro l
    induction l with
    | nil => intro s hs; exact hs
    | cons op rest ih => intro s hs; exact ih _ (regInv_step s op hs)
  exact gen ops initRegistry base

/-- Claim C5 (counterexample): `DefaultHub` never enters the default hub into
the `hubs` registry, so `NewHub(defaultHubID)` followed by `DefaultHub()`
allocates two distinct hub instances both carrying the default hub's ID. -/
theorem C5_counterexample :
    (0, defaultHubID) ∈ (runHubOps [HubOp.newHub defaultHubID, HubOp.defaultHub]).alloc ∧
    (1, defaultHubID) ∈ (runHubOps [HubOp.newHub defaultHubID, HubOp.defaultHub]).alloc ∧
    (0 : Nat) ≠ 1 := by
  refine ⟨?_, ?_, by decide⟩ <;> decide

/-- Claim C5 (amended): after any sequence of `NewHub` and `DefaultHub` calls,
at most one hub instance exists per distinct ID other than the default hub's
ID, and the default hub is a lazily created singleton (absent initially, and a
repeated `DefaultHub` call returns the same instance); uniqueness does not
extend to the default hub's ID itself, because the default singleton is never
entered into the registry. -/
theorem C5_hub_uniqueness (ops : List HubOp) (id : String) (hne : id ≠ defaultHubID) :
    ((runHubOps ops).alloc.filter (fun p => p.2 = id)).length ≤ 1 ∧
    (DefaultHub (DefaultHub (runHubOps ops)).1).2 = (DefaultHub (runHubOps ops)).2 ∧
    initRegistry.defaultHub = none := by
  refine ⟨(regInv_run ops id hne).2, ?_, rfl⟩
  cases hd : (runHubOps ops).defaultHub with
  | some hb => simp [DefaultHub, hd]
  | none => simp [DefaultHub, hd]

/-- Claim C5 (witness for the amended theorem): two `NewHub "a"` calls and two
`DefaultHub` calls leave at most one instance with ID `a`. -/
theorem C5_hub_uniqueness_witness :
    ((runHubOps [HubOp.newHub "a", HubOp.newHub "a", HubOp.defaultHub,
        HubOp.defaultHub]).alloc.filter (fun p => p.2 = "a")).length ≤ 1 ∧
    (DefaultHub (DefaultHub (runHubOps [HubOp.newHub "a", HubOp.newHub "a",
        HubOp.defaultHub, HubOp.defaultHub])).1).2
      = (DefaultHub (runHubOps [HubOp.newHub "a", HubOp.newHub "a",
          HubOp.defaultHub, HubOp.defaultHub])).2 ∧
    initRegistry.defaultHub = none :=
  C5_hub_uniqueness [HubOp.newHub "a", HubOp.newHub "a", HubOp.defaultHub,
    HubOp.defaultHub] "a" (by decide)

/-- Claim C6: when `id` is registered, `NewHub id` returns the registered hub
together with the `DuplicateHubID` error and leaves the whole registry state
unchanged; when `id` is unregistered, it allocates a fresh hub carrying `id`,
registers it under `id`, and returns it with no error. -/
theorem C6_newHub (s : HubRegistry) (id : String) :
    (∀ hb, lookupA s.hubs id = some hb →
        NewHub s id = { state := s, hub := hb, err := some () }) ∧
    (lookupA s.hubs id = none →
        (NewHub s id).err = none ∧
        (NewHub s id).hub = s.counter ∧
        lookupA (NewHub s id).state.hubs id = some s.counter ∧
        (NewHub s id).state.alloc = s.alloc ++ [(s.counter, id)] ∧
        (∀ id', id' ≠ id →
            lookupA (NewHub s id).state.hubs id' = lookupA s.hubs id')) := by
  constructor
  · intro hb hl
    unfold NewHub
    rw [hl]
  · intro hl
    unfold NewHub
    rw [hl]
    refine ⟨rfl, rfl, by simp [lookupA_updateA_self], rfl, ?_⟩
    intro id' hne
    simp [lookupA_updateA_ne _ _ _ _ hne]

/-- Claim C6 (witness): with hub `0` registered under `"a"`, `NewHub "a"`
fails with the duplicate error returning hub `0` and changes nothing, while
`NewHub "b"` allocates and registers hub `1` without error. -/
theorem C6_newHub_witness :
    NewHub ⟨1, [(0, "a")], [("a", 0)], none⟩ "a"
      = { state := ⟨1, [(0, "a")], [("a", 0)], none⟩, hub := 0, err := some () } ∧
    (NewHub ⟨1, [(0, "a")], [("a", 0)], none⟩ "b").err = none ∧
    (NewHub ⟨1, [(0, "a")], [("a", 0)], none⟩ "b").hub = 1 ∧
    lookupA (NewHub ⟨1, [(0, "a")], [("a", 0)], none⟩ "b").state.hubs "b" = some 1 :=
  have h := C6_newHub ⟨1, [(0, "a")], [("a", 0)], none⟩ "b"
  ⟨(C6_newHub ⟨1, [(0, "a")], [("a", 0)], none⟩ "a").1 0 rfl,
    (h.2 rfl).1, (h.2 rfl).2.1, (h.2 rfl).2.2.1⟩

/-! ### Message parsing (src/artemis.go lines 272-289, src/client.go ParseBinary)

Decoded JSON values.  `json.Unmarshal` is Go standard library, outside this
repository: `ParseJSONMessage` therefore takes the decode result as an
argument (`none` models a decode error, whose error value the source returns
unchanged). -/

inductive JValue : Type where
  | jnull
  | jbool (b : Bool)
  | jnum (n : Int)
  | jstr (s : String)
  | jarr (vs : List JValue)
  | jobj (fs : List (String × JValue))

inductive GoError : Type where
  | unparseableMessage
  | notYetImplemented
  deriving DecidableEq, Repr

/-- Modelled from the spec: the `ParsedMessage` record and its constructor
`NewParsedMessage` are not under src/ (only the call in `ParseJSONMessage`
is); per the spec's data model a parsed message carries the kind string parsed
from the payload, the opaque decoded value and the raw bytes. -/
structure ParsedMessage where
  kind : String
  data : List (String × JValue)
  raw : List Nat

def NewParsedMessage (kind : String) (pm : List (String × JValue))
    (raw : List Nat) : ParsedMessage :=
  { kind := kind, data := pm, raw := raw }

inductive ParseOutcome : Type where
  /-- the parser returned a message and a nil error -/
  | ok (m : ParsedMessage)
  /-- `json.Unmarshal` failed and its error was returned unchanged -/
  | errDecode
  /-- the parser returned `ErrUnparseableMessage` -/
  | errUnparseable
  /-- the unchecked Go type assertion `kind.(string)` failed at run time -/
  | panicked

def ParseJSONMessage (m : List Nat) (decoded : Option (List (String × JValue))) :
    ParseOutcome :=
  match decoded with
  | none => ParseOutcome.errDecode
  | some pm =>
      match lookupA pm "kind" with
      | none => ParseOutcome.errUnparseable
      | some (JValue.jstr s) => ParseOutcome.ok (NewParsedMessage s pm m)
      | some _ => ParseOutcome.panicked

inductive BinaryParseOutcome : Type where
  | ok (m : ParsedMessage)
  | err (e : GoError)

/-- `Client.ParseBinary`: delegate to the custom parser when one is set,
otherwise fail with `errNotYetImplemented`; the default binary parser is the
`none` case. -/
def Client.ParseBinary (mp : Option (List Nat → BinaryParseOutcome))
    (m : List Nat) : BinaryParseOutcome :=
  match mp with
  | some p => p m
  | none => BinaryParseOutcome.err GoError.notYetImplemented

/-- Claim C7 (counterexample): on the payload `\x7b"kind": true\x7d` — decoded
object with a `kind` field that is present but not a string — the parser hits
the unchecked type assertion `kind.(string)` and panics instead of failing
with `UnparseableMessage`. -/
theorem C7_counterexample :
    ParseJSONMessage [1] (some [("kind", JValue.jbool true)]) = ParseOutcome.panicked ∧
    ParseJSONMessage [1] (some [("kind", JValue.jbool true)]) ≠ ParseOutcome.errUnparseable := by
  refine ⟨rfl, ?_⟩
  intro h
  exact ParseOutcome.noConfusion h

/-- Claim C7 (amended): the default text parser returns the decode error when
the payload does not decode; with a decoded object it returns a parsed message
whose kind equals the `kind` field's value when that field is present and
string-valued, fails with `UnparseableMessage` only when the field is absent,
and panics (unchecked type assertion) when the field is present but not a
string; the default binary parser always fails with `NotYetImplemented`. -/
theorem C7_parsers (m : List Nat) (decoded : Option (List (String × JValue))) :
    (decoded = none → ParseJSONMessage m decoded = ParseOutcome.errDecode) ∧
    (∀ pm, decoded = some pm → lookupA pm "kind" = none →
        ParseJSONMessage m decoded = ParseOutcome.errUnparseable) ∧
    (∀ pm s, decoded = some pm → lookupA pm "kind" = some (JValue.jstr s) →
        ParseJSONMessage m decoded = ParseOutcome.ok (NewParsedMessage s pm m)) ∧
    (∀ pm v, decoded = some pm → lookupA pm "kind" = some v →
        (∀ s, v ≠ JValue.jstr s) →
        ParseJSONMessage m decoded = ParseOutcome.panicked) ∧
    (∀ m2, Client.ParseBinary none m2 = BinaryParseOutcome.err GoError.notYetImplemented) := by
  refine ⟨?_, ?_, ?_, ?_, fun m2 => rfl⟩
  · intro h
    rw [h]
    rfl
  · intro pm hpm hl
    rw [hpm]
    simp [ParseJSONMessage, hl]
  · intro pm s hpm hl
    rw [hpm]
    simp [ParseJSONMessage, hl]
  · intro pm v hpm hl hns
    rw [hpm]
    cases v with
    | jstr s => exact absurd rfl (hns s)
    | jnull => simp [ParseJSONMessage, hl]
    | jbool b => simp [ParseJSONMessage, hl]
    | jnum n => simp [ParseJSONMessage, hl]
    | jarr vs => simp [ParseJSONMessage, hl]
    | jobj fs => simp [ParseJSONMessage, hl]

/-- Claim C7 (witness for the amended theorem): concrete evaluation on the
decoded form of `\x7b"kind":"testMessage","item1":"thing"\x7d`. -/
theorem C7_parsers_witness :
    ((some [("kind", JValue.jstr "testMessage"), ("item1", JValue.jstr "thing")]
        : Option (List (String × JValue))) = none →
      ParseJSONMessage [7] (some [("kind", JValue.jstr "testMessage"),
        ("item1", JValue.jstr "thing")]) = ParseOutcome.errDecode) ∧
    (∀ pm, (some [("kind", JValue.jstr "testMessage"), ("item1", JValue.jstr "thing")]
        : Option (List (String × JValue))) = some pm → lookupA pm "kind" = none →
      ParseJSONMessage [7] (some [("kind", JValue.jstr "testMessage"),
        ("item1", JValue.jstr "thing")]) = ParseOutcome.errUnparseable) ∧
    (∀ pm s, (some [("kind", JValue.jstr "testMessage"), ("item1", JValue.jstr "thing")]
        : Option (List (String × JValue))) = some pm →
      lookupA pm "kind" = some (JValue.jstr s) →
      ParseJSONMessage [7] (some [("kind", JValue.jstr "testMessage"),
        ("item1", JValue.jstr "thing")]) = ParseOutcome.ok (NewParsedMessage s pm [7])) ∧
    (∀ pm v, (some [("kind", JValue.jstr "testMessage"), ("item1", JValue.jstr "thing")]
        : Option (List (String × JValue))) = some pm → lookupA pm "kind" = some v →
      (∀ s, v ≠ JValue.jstr s) →
      ParseJSONMessage [7] (some [("kind", JValue.jstr "testMessage"),
        ("item1", JValue.jstr "thing")]) = ParseOutcome.panicked) ∧
    (∀ m2, Client.ParseBinary none m2 = BinaryParseOutcome.err GoError.notYetImplemented) :=
  C7_parsers [7] (some [("kind", JValue.jstr "testMessage"), ("item1", JValue.jstr "thing")])

/-! ### Family membership cascade (src/family.go)

A `Delegate` exposes a message agent and an event agent; delegates are
identified by a numeric reference indexing the world's agent tables.
`MessageAgent.Subscribe` / `Unsubscribe` themselves are not under src/, so
their effect on the message agent's own handler set is modelled from the
spec. -/

structure MessageAgent where
  subscriptions : List (String × EventHandlerSet)
  deriving DecidableEq, Repr

/-- Modelled from the spec: `MessageAgent.Subscribe` is not under src/ (only
its callers in family.go are); per spec §4.2 it manages this agent's own
handler set, independent of Hub/Family subscriptions. -/
def MessageAgent.Subscribe (a : MessageAgent) (kind hdl : String) : MessageAgent :=
  { a with subscriptions := handlerMapAdd a.subscriptions kind hdl }

/-- Modelled from the spec: `MessageAgent.Unsubscribe` is not under src/; per
spec §4.2 it removes the handler from this agent's own handler set. -/
def MessageAgent.Unsubscribe (a : MessageAgent) (kind hdl : String) : MessageAgent :=
  match lookupA a.subscriptions kind with
  | some actions =>
      { a with
        subscriptions := updateA a.subscriptions kind (EventHandlerSet.Remove actions hdl) }
  | none => a

structure messageSubscriber where
  subscribers : List Nat
  subscriptions : List (String × EventHandlerSet)
  deriving DecidableEq, Repr

structure eventSubscriber where
  subscribers : List Nat
  subscriptions : List (String × EventHandlerSet)
  deriving DecidableEq, Repr

structure Family where
  Messages : messageSubscriber
  Events : eventSubscriber
  deriving DecidableEq, Repr

/-- `Hub.NewFamily` wires a family with empty subscriber sets and empty
subscription maps. -/
def Hub.NewFamily : Family :=
  { Messages := { subscribers := [], subscriptions := [] }
  , Events := { subscribers := [], subscriptions := [] } }

/-- The world a family lives in: the hub, the agents of every delegate, and
the family state. -/
structure World where
  hub : Hub
  evAgents : List (Nat × EventAgent)
  msgAgents : List (Nat × MessageAgent)
  fam : Family
  deriving DecidableEq, Repr

/-- Effect of `d.EventAgent().Subscribe(kind, hdl)` on the world. -/
def worldEvSubscribe (w : World) (d : Nat) (kind hdl : String) : World :=
  match lookupA w.evAgents d with
  | none => w
  | some a =>
      let r := a.Subscribe w.hub kind hdl
      { w with hub := r.1, evAgents := updateA w.evAgents d r.2 }

/-- Effect of `d.EventAgent().Unsubscribe(kind, hdl)` on the world. -/
def worldEvUnsubscribe (w : World) (d : Nat) (kind hdl : String) : World :=
  match lookupA w.evAgents d with
  | none => w
  | some a =>
      let r := a.Unsubscribe w.hub kind hdl
      { w with hub := r.1, evAgents := updateA w.evAgents d r.2 }

/-- Effect of `d.MessageAgent().Subscribe(kind, hdl)` on the world. -/
def worldMsgSubscribe (w : World) (d : Nat) (kind hdl : String) : World :=
  match lookupA w.msgAgents d with
  | none => w
  | some a => { w with msgAgents := updateA w.msgAgents d (a.Subscribe kind hdl) }

/-- Effect of `d.MessageAgent().Unsubscribe(kind, hdl)` on the world. -/
def worldMsgUnsubscribe (w : World) (d : Nat) (kind hdl : String) : World :=
  match lookupA w.msgAgents d with
  | none => w
  | some a => { w with msgAgents := updateA w.msgAgents d (a.Unsubscribe kind hdl) }

/-- The `(kind, handler)` pairs visited by
`for kind, handlers := range subs \x7b for _, h := range handlers \x7b ... \x7d \x7d`. -/
def subscriptionPairs (subs : List (String × EventHandlerSet)) : List (String × String) :=
  subs.flatMap (fun p => p.2.map (fun h => (p.1, h)))

/-- `eventSubscriber.Add`: warn and no-op on a present delegate; otherwise
subscribe the new member's event agent to every `(kind, handler)` pair of the
family's event subscription map, then record the member. -/
def eventSubscriberAdd (w : World) (d : Nat) : World :=
  if d ∈ w.fam.Events.subscribers then w
  else
    let w1 := (subscriptionPairs w.fam.Events.subscriptions).foldl
        (fun acc p => worldEvSubscribe acc d p.1 p.2) w
    let evs := { w1.fam.Events with subscribers := w1.fam.Events.subscribers ++ [d] }
    { w1 with fam := { w1.fam with Events := evs } }

/-- `eventSubscriber.Remove`: warn and no-op on an absent delegate; otherwise
unsubscribe every family-registered `(kind, handler)` pair from the member's
event agent, then delete the member. -/
def eventSubscriberRemove (w : World) (d : Nat) : World :=
  if d ∈ w.fam.Events.subscribers then
    let w1 := (subscriptionPairs w.fam.Events.subscriptions).foldl
        (fun acc p => worldEvUnsubscribe acc d p.1 p.2) w
    let evs := { w1.fam.Events with
                 subscribers := w1.fam.Events.subscribers.filter (fun s => s ≠ d) }
    { w1 with fam := { w1.fam with Events := evs } }
  else w

/-- `eventSubscriber.Subscribe`: record the handler in the family's event
subscription map, then subscribe every current member's event agent. -/
def eventSubscriberSubscribe (w : World) (kind hdl : String) : World :=
  let evs := { w.fam.Events with
               subscriptions := handlerMapAdd w.fam.Events.subscriptions kind hdl }
  let w1 := { w with fam := { w.fam with Events := evs } }
  w1.fam.Events.subscribers.foldl (fun acc s => worldEvSubscribe acc s kind hdl) w1

/-- `eventSubscriber.Unsubscribe`: remove the handler from the family's event
subscription map when the kind has an entry (the entry itself is kept), then
unsubscribe every current member's event agent. -/
def eventSubscriberUnsubscribe (w : World) (kind hdl : String) : World :=
  let subs := match lookupA w.fam.Events.subscriptions kind with
    | some handlers =>
        updateA w.fam.Events.subscriptions kind (EventHandlerSet.Remove handlers hdl)
    | none => w.fam.Events.subscriptions
  let evs := { w.fam.Events with subscriptions := subs }
  let w1 := { w with fam := { w.fam with Events := evs } }
  w1.fam.Events.subscribers.foldl (fun acc s => worldEvUnsubscribe acc s kind hdl) w1

/-- `messageSubscriber.Add` (mirror of the event side on message agents). -/
def messageSubscriberAdd (w : World) (d : Nat) : World :=
  if d ∈ w.fam.Messages.subscribers then w
  else
    let w1 := (subscriptionPairs w.fam.Messages.subscriptions).foldl
        (fun acc p => worldMsgSubscribe acc d p.1 p.2) w
    let ms := { w1.fam.Messages with subscribers := w1.fam.Messages.subscribers ++ [d] }
    { w1 with fam := { w1.fam with Messages := ms } }

/-- `messageSubscriber.Remove` (mirror of the event side on message agents). -/
def messageSubscriberRemove (w : World) (d : Nat) : World :=
  if d ∈ w.fam.Messages.subscribers then
    let w1 := (subscriptionPairs w.fam.Messages.subscriptions).foldl
        (fun acc p => worldMsgUnsubscribe acc d p.1 p.2) w
    let ms := { w1.fam.Messages with
                subscribers := w1.fam.Messages.subscribers.filter (fun s => s ≠ d) }
    { w1 with fam := { w1.fam with Messages := ms } }
  else w

/-- `Family.Add`: `f.Messages.Add(d); f.Events.Add(d)`. -/
def FamilyAdd (w : World) (d : Nat) : World :=
  eventSubscriberAdd (messageSubscriberAdd w d) d

/-- `Family.Remove`: `f.Messages.Remove(d); f.Events.Remove(d)`. -/
def FamilyRemove (w : World) (d : Nat) : World :=
  eventSubscriberRemove (messageSubscriberRemove w d) d

def messagesHasMember (w : World) (d : Nat) : Prop :=
  d ∈ w.fam.Messages.subscribers

def eventsHasMember (w : World) (d : Nat) : Prop :=
  d ∈ w.fam.Events.subscribers

/-- `Family.hasMember`: `f.Events.hasMember(d) || f.Messages.hasMember(d)`. -/
def FamilyHasMember (w : World) (d : Nat) : Prop :=
  eventsHasMember w d ∨ messagesHasMember w d

inductive FamOp : Type where
  | add (d : Nat)
  | remove (d : Nat)
  deriving DecidableEq, Repr

def stepFam (w : World) : FamOp → World
  | .add d => FamilyAdd w d
  | .remove d => FamilyRemove w d

def runFam (w : World) (ops : List FamOp) : World :=
  ops.foldl stepFam w

/-! ### Family lemmas: effect of the cascade operations on family state -/

theorem worldEvSubscribe_fam (w : World) (d : Nat) (kind hdl : String) :
    (worldEvSubscribe w d kind hdl).fam = w.fam := by
  unfold worldEvSubscribe
  cases lookupA w.evAgents d <;> rfl

theorem worldEvUnsubscribe_fam (w : World) (d : Nat) (kind hdl : String) :
    (worldEvUnsubscribe w d kind hdl).fam = w.fam := by
  unfold worldEvUnsubscribe
  cases lookupA w.evAgents d <;> rfl

theorem worldMsgSubscribe_fam (w : World) (d : Nat) (kind hdl : String) :
    (worldMsgSubscribe w d kind hdl).fam = w.fam := by
  unfold worldMsgSubscribe
  cases lookupA w.msgAgents d <;> rfl

theorem worldMsgUnsubscribe_fam (w : World) (d : Nat) (kind hdl : String) :
    (worldMsgUnsubscribe w d kind hdl).fam = w.fam := by
  unfold worldMsgUnsubscribe
  cases lookupA w.msgAgents d <;> rfl

theorem foldl_fam_eq {α : Type} (f : World → α → World)
    (hf : ∀ w x, (f w x).fam = w.fam) :
    ∀ (l : List α) (w : World), (l.foldl f w).fam = w.fam := by
  intro l
  induction l with
  | nil => intro w; rfl
  | cons x rest ih => intro w; rw [List.foldl_cons, ih, hf]

theorem messageSubscriberAdd_Events (w : World) (d : Nat) :
    (messageSubscriberAdd w d).fam.Events = w.fam.Events := by
  unfold messageSubscriberAdd
  by_cases h : d ∈ w.fam.Messages.subscribers
  · simp [h]
  · simp only [h, if_false]
    rw [foldl_fam_eq (fun acc (p : String × String) => worldMsgSubscribe acc d p.1 p.2) (fun w x => worldMsgSubscribe_fam w d x.1 x.2)]

theorem messageSubscriberAdd_subscribers (w : World) (d : Nat) :
    (messageSubscriberAdd w d).fam.Messages.subscribers
      = if d ∈ w.fam.Messages.subscribers then w.fam.Messages.subscribers
        else w.fam.Messages.subscribers ++ [d] := by
  unfold messageSubscriberAdd
  by_cases h : d ∈ w.fam.Messages.subscribers
  · simp [h]
  · simp only [h, if_false]
    rw [foldl_fam_eq (fun acc (p : String × String) => worldMsgSubscribe acc d p.1 p.2) (fun w x => worldMsgSubscribe_fam w d x.1 x.2)]

theorem messageSubscriberRemove_Events (w : World) (d : Nat) :
    (messageSubscriberRemove w d).fam.Events = w.fam.Events := by
  unfold messageSubscriberRemove
  by_cases h : d ∈ w.fam.Messages.subscribers
  · simp only [h, if_true]
    rw [foldl_fam_eq (fun acc (p : String × String) => worldMsgUnsubscribe acc d p.1 p.2) (fun w x => worldMsgUnsubscribe_fam w d x.1 x.2)]
  · simp [h]

theorem messageSubscriberRemove_subscribers (w : World) (d : Nat) :
    (messageSubscriberRemove w d).fam.Messages.subscribers
      = if d ∈ w.fam.Messages.subscribers
        then w.fam.Messages.subscribers.filter (fun s => s ≠ d)
        else w.fam.Messages.subscribers := by
  unfold messageSubscriberRemove
  by_cases h : d ∈ w.fam.Messages.subscribers
  · simp only [h, if_true]
    rw [foldl_fam_eq (fun acc (p : String × String) => worldMsgUnsubscribe acc d p.1 p.2) (fun w x => worldMsgUnsubscribe_fam w d x.1 x.2)]
  · simp [h]

theorem eventSubscriberAdd_Messages (w : World) (d : Nat) :
    (eventSubscriberAdd w d).fam.Messages = w.fam.Messages := by
  unfold eventSubscriberAdd
  by_cases h : d ∈ w.fam.Events.subscribers
  · simp [h]
  · simp only [h, if_false]
    rw [foldl_fam_eq (fun acc (p : String × String) => worldEvSubscribe acc d p.1 p.2) (fun w x => worldEvSubscribe_fam w d x.1 x.2)]

theorem eventSubscriberAdd_subscribers (w : World) (d : Nat) :
    (eventSubscriberAdd w d).fam.Events.subscribers
      = if d ∈ w.fam.Events.subscribers then w.fam.Events.subscribers
        else w.fam.Events.subscribers ++ [d] := by
  unfold eventSubscriberAdd
  by_cases h : d ∈ w.fam.Events.subscribers
  · simp [h]
  · simp only [h, if_false]
    rw [foldl_fam_eq (fun acc (p : String × String) => worldEvSubscribe acc d p.1 p.2) (fun w x => worldEvSubscribe_fam w d x.1 x.2)]

theorem eventSubscriberRemove_Messages (w : World) (d : Nat) :
    (eventSubscriberRemove w d).fam.Messages = w.fam.Messages := by
  unfold eventSubscriberRemove
  by_cases h : d ∈ w.fam.Events.subscribers
  · simp only [h, if_true]
    rw [foldl_fam_eq (fun acc (p : String × String) => worldEvUnsubscribe acc d p.1 p.2) (fun w x => worldEvUnsubscribe_fam w d x.1 x.2)]
  · simp [h]

theorem eventSubscriberRemove_subscribers (w : World) (d : Nat) :
    (eventSubscriberRemove w d).fam.Events.subscribers
      = if d ∈ w.fam.Events.subscribers
        then w.fam.Events.subscribers.filter (fun s => s ≠ d)
        else w.fam.Events.subscribers := by
  unfold eventSubscriberRemove
  by_cases h : d ∈ w.fam.Events.subscribers
  · simp only [h, if_true]
    rw [foldl_fam_eq (fun acc (p : String × String) => worldEvUnsubscribe acc d p.1 p.2) (fun w x => worldEvUnsubscribe_fam w d x.1 x.2)]
  · simp [h]

theorem stepFam_subscribersEq (w : World) (op : FamOp)
    (h : w.fam.Messages.subscribers = w.fam.Events.subscribers) :
    (stepFam w op).fam.Messages.subscribers = (stepFam w op).fam.Events.subscribers := by
  cases op with
  | add d =>
      show (FamilyAdd w d).fam.Messages.subscribers = (FamilyAdd w d).fam.Events.subscribers
      unfold FamilyAdd
      rw [eventSubscriberAdd_Messages, messageSubscriberAdd_subscribers,
        eventSubscriberAdd_subscribers, messageSubscriberAdd_Events, h]
  | remove d =>
      show (FamilyRemove w d).fam.Messages.subscribers
        = (FamilyRemove w d).fam.Events.subscribers
      unfold FamilyRemove
      rw [eventSubscriberRemove_Messages, messageSubscriberRemove_subscribers,
        eventSubscriberRemove_subscribers, messageSubscriberRemove_Events, h]

/-- Claim C10: starting from a family whose message-side and event-side
subscriber sets agree (as `Hub.NewFamily` creates them, both empty), any
sequence of `Family.Add` and `Family.Remove` calls keeps the set of delegates
recorded as message subscribers equal to the set recorded as event
subscribers, so `hasMember` gives the same answer judged by either side, and
`Family.hasMember` (the disjunction of the two sides) agrees with both. -/
theorem C10_membership (w0 : World) (ops : List FamOp)
    (h : w0.fam.Messages.subscribers = w0.fam.Events.subscribers) :
    (runFam w0 ops).fam.Messages.subscribers = (runFam w0 ops).fam.Events.subscribers ∧
    (∀ d, messagesHasMember (runFam w0 ops) d ↔ eventsHasMember (runFam w0 ops) d) ∧
    (∀ d, FamilyHasMember (runFam w0 ops) d ↔ eventsHasMember (runFam w0 ops) d) := by
  have main : ∀ (l : List FamOp) (w : World),
      w.fam.Messages.subscribers = w.fam.Events.subscribers →
      (l.foldl stepFam w).fam.Messages.subscribers
        = (l.foldl stepFam w).fam.Events.subscribers := by
    intro l
    induction l with
    | nil => intro w hw; exact hw
    | cons op rest ih => intro w hw; exact ih _ (stepFam_subscribersEq w op hw)
  have he := main ops w0 h
  refine ⟨he, fun d => ?_, fun d => ?_⟩
  · unfold messagesHasMember eventsHasMember runFam
    rw [he]
  · unfold FamilyHasMember messagesHasMember eventsHasMember runFam
    rw [he]
    exact or_self_iff

/-- Claim C10 (witness): a family created by `Hub.NewFamily` after adding
delegates `1` and `2` and removing `1`. -/
theorem C10_membership_witness :
    (runFam ⟨⟨"H", []⟩, [(1, ⟨1, none, false, []⟩)], [(1, ⟨[]⟩)], Hub.NewFamily⟩
        [FamOp.add 1, FamOp.add 2, FamOp.remove 1]).fam.Messages.subscribers
      = (runFam ⟨⟨"H", []⟩, [(1, ⟨1, none, false, []⟩)], [(1, ⟨[]⟩)], Hub.NewFamily⟩
        [FamOp.add 1, FamOp.add 2, FamOp.remove 1]).fam.Events.subscribers ∧
    (∀ d, messagesHasMember (runFam ⟨⟨"H", []⟩, [(1, ⟨1, none, false, []⟩)], [(1, ⟨[]⟩)],
        Hub.NewFamily⟩ [FamOp.add 1, FamOp.add 2, FamOp.remove 1]) d
      ↔ eventsHasMember (runFam ⟨⟨"H", []⟩, [(1, ⟨1, none, false, []⟩)], [(1, ⟨[]⟩)],
        Hub.NewFamily⟩ [FamOp.add 1, FamOp.add 2, FamOp.remove 1]) d) ∧
    (∀ d, FamilyHasMember (runFam ⟨⟨"H", []⟩, [(1, ⟨1, none, false, []⟩)], [(1, ⟨[]⟩)],
        Hub.NewFamily⟩ [FamOp.add 1, FamOp.add 2, FamOp.remove 1]) d
      ↔ eventsHasMember (runFam ⟨⟨"H", []⟩, [(1, ⟨1, none, false, []⟩)], [(1, ⟨[]⟩)],
        Hub.NewFamily⟩ [FamOp.add 1, FamOp.add 2, FamOp.remove 1]) d) :=
  C10_membership ⟨⟨"H", []⟩, [(1, ⟨1, none, false, []⟩)], [(1, ⟨[]⟩)], Hub.NewFamily⟩
    [FamOp.add 1, FamOp.add 2, FamOp.remove 1] rfl

/-! ### Agent-side effect of cascaded subscriptions

`EventAgent.Subscribe` splits into a hub effect and a pure agent effect; the
agent effect of a sequence of cascaded subscriptions is a fold, whose value at
each kind depends only on the subsequence of handlers added for that kind. -/

def agentSubLocal (a : EventAgent) (kind hdl : String) : EventAgent :=
  { a with ready := true, subscriptions := handlerMapAdd a.subscriptions kind hdl }

theorem subscribe_agent_local (a : EventAgent) (hub : Hub) (kind hdl : String) :
    (a.Subscribe hub kind hdl).2 = agentSubLocal a kind hdl := rfl

def agentFold (a : EventAgent) (ps : List (String × String)) : EventAgent :=
  ps.foldl (fun acc p => agentSubLocal acc p.1 p.2) a

/-- The handler adds performed for one kind by a pair sequence. -/
def pairsAt (kind : String) (ps : List (String × String)) : List String :=
  (ps.filter (fun p => p.1 = kind)).map Prod.snd

/-- Result of replaying a sequence of handler adds on a kind's (possibly
absent) handler-set entry. -/
def applyAdds (v : Option EventHandlerSet) : List String → Option EventHandlerSet
  | [] => v
  | h :: rest => applyAdds (some (EventHandlerSet.Add (v.getD []) h)) rest

theorem applyAdds_some (s : EventHandlerSet) (ops : List String) :
    applyAdds (some s) ops = some (ops.foldl EventHandlerSet.Add s) := by
  induction ops generalizing s with
  | nil => rfl
  | cons h rest ih => simp [applyAdds, ih, List.foldl_cons]

theorem applyAdds_cons (v : Option EventHandlerSet) (h : String) (ops : List String) :
    applyAdds v (h :: ops)
      = some ((h :: ops).foldl EventHandlerSet.Add (v.getD [])) := by
  rw [List.foldl_cons]
  show applyAdds (some (EventHandlerSet.Add (v.getD []) h)) ops = _
  exact applyAdds_some _ _

theorem mem_setAdd_self (s : EventHandlerSet) (h : String) :
    h ∈ EventHandlerSet.Add s h := by
  unfold EventHandlerSet.Add
  by_cases hm : h ∈ s <;> simp [hm]

theorem mem_setAdd_mono (s : EventHandlerSet) (g h : String) (hg : g ∈ s) :
    g ∈ EventHandlerSet.Add s h := by
  unfold EventHandlerSet.Add
  by_cases hm : h ∈ s <;> simp [hm, hg]

theorem mem_setAdd_iff (s : EventHandlerSet) (g h : String) :
    g ∈ EventHandlerSet.Add s h ↔ g ∈ s ∨ g = h := by
  unfold EventHandlerSet.Add
  by_cases hm : h ∈ s
  · simp only [hm, if_true]
    constructor
    · exact Or.inl
    · rintro (hg | rfl)
      · exact hg
      · exact hm
  · simp [hm]

theorem setAdd_mem_noop (s : EventHandlerSet) (g : String) (hg : g ∈ s) :
    EventHandlerSet.Add s g = s := by
  unfold EventHandlerSet.Add
  simp [hg]

theorem setAdd_ne_nil (s : EventHandlerSet) (h : String) :
    EventHandlerSet.Add s h ≠ [] := by
  intro hcon
  have hm := mem_setAdd_self s h
  rw [hcon] at hm
  cases hm

theorem foldl_setAdd_mem_mono (ops : List String) (s : EventHandlerSet) (g : String)
    (hg : g ∈ s) : g ∈ ops.foldl EventHandlerSet.Add s := by
  induction ops generalizing s with
  | nil => exact hg
  | cons h rest ih => exact ih _ (mem_setAdd_mono s g h hg)

theorem foldl_setAdd_mem_of_ops (ops : List String) (s : EventHandlerSet) (g : String)
    (hg : g ∈ ops) : g ∈ ops.foldl EventHandlerSet.Add s := by
  induction ops generalizing s with
  | nil => cases hg
  | cons h rest ih =>
      rcases List.mem_cons.mp hg with rfl | hm
      · exact foldl_setAdd_mem_mono rest _ g (mem_setAdd_self s g)
      · exact ih _ hm

/-- Absorption: appending an add of a handler already among the ops changes
nothing. -/
theorem applyAdds_append_mem (v : Option EventHandlerSet) (ops : List String)
    (hdl : String) (hm : hdl ∈ ops) :
    applyAdds v (ops ++ [hdl]) = applyAdds v ops := by
  cases ops with
  | nil => cases hm
  | cons h rest =>
      rw [List.cons_append, applyAdds_cons, applyAdds_cons]
      rw [List.foldl_cons, List.foldl_cons, List.foldl_append]
      congr 1
      apply setAdd_mem_noop
      rcases List.mem_cons.mp hm with rfl | hmr
      · exact foldl_setAdd_mem_mono rest _ hdl (mem_setAdd_self _ hdl)
      · exact foldl_setAdd_mem_of_ops rest _ hdl hmr

theorem mem_applyAdds_of_ops (v : Option EventHandlerSet) (ops : List String)
    (g : String) (hg : g ∈ ops) :
    ∃ v2, applyAdds v ops = some v2 ∧ g ∈ v2 := by
  cases ops with
  | nil => cases hg
  | cons h rest =>
      rw [applyAdds_cons]
      refine ⟨_, rfl, ?_⟩
      rw [List.foldl_cons]
      rcases List.mem_cons.mp hg with rfl | hmr
      · exact foldl_setAdd_mem_mono rest _ g (mem_setAdd_self _ g)
      · exact foldl_setAdd_mem_of_ops rest _ g hmr

/-! ### agentFold projections -/

theorem agentFold_ref (a : EventAgent) (ps : List (String × String)) :
    (agentFold a ps).ref = a.ref := by
  induction ps generalizing a with
  | nil => rfl
  | cons p rest ih => exact ih (agentSubLocal a p.1 p.2)

theorem agentFold_Delegate (a : EventAgent) (ps : List (String × String)) :
    (agentFold a ps).Delegate = a.Delegate := by
  induction ps generalizing a with
  | nil => rfl
  | cons p rest ih => exact ih (agentSubLocal a p.1 p.2)

theorem agentFold_ready (a : EventAgent) (ps : List (String × String)) :
    (agentFold a ps).ready = (if ps.isEmpty then a.ready else true) := by
  induction ps generalizing a with
  | nil => rfl
  | cons p rest ih =>
      show (agentFold (agentSubLocal a p.1 p.2) rest).ready = _
      rw [ih]
      cases rest <;> simp [agentSubLocal]

theorem agentFold_append (a : EventAgent) (l1 l2 : List (String × String)) :
    agentFold a (l1 ++ l2) = agentFold (agentFold a l1) l2 := by
  unfold agentFold
  simp [List.foldl_append]

theorem agentFold_lookup (ps : List (String × String)) (a : EventAgent) (kind : String) :
    lookupA (agentFold a ps).subscriptions kind
      = applyAdds (lookupA a.subscriptions kind) (pairsAt kind ps) := by
  induction ps generalizing a with
  | nil => rfl
  | cons p rest ih =>
      show lookupA (agentFold (agentSubLocal a p.1 p.2) rest).subscriptions kind = _
      rw [ih]
      by_cases h : p.1 = kind
      · subst h
        have : pairsAt p.1 (p :: rest) = p.2 :: pairsAt p.1 rest := by
          simp [pairsAt, List.filter_cons]
        rw [this]
        show applyAdds (lookupA (handlerMapAdd a.subscriptions p.1 p.2) p.1) _ = _
        rw [lookupA_handlerMapAdd_self]
        rfl
      · have : pairsAt kind (p :: rest) = pairsAt kind rest := by
          simp [pairsAt, List.filter_cons, h]
        rw [this]
        show applyAdds (lookupA (handlerMapAdd a.subscriptions p.1 p.2) kind) _ = _
        rw [lookupA_handlerMapAdd_ne _ _ _ _ (fun hh => h hh.symm)]

/-! ### Keys of subscription maps and the pairs they generate -/

theorem lookupA_eq_none_iff {κ β : Type} [DecidableEq κ] (m : List (κ × β)) (k : κ) :
    lookupA m k = none ↔ k ∉ m.map Prod.fst := by
  induction m with
  | nil => simp [lookupA]
  | cons p rest ih =>
      obtain ⟨k1, v⟩ := p
      by_cases h : k1 = k
      · subst h
        simp [lookupA]
      · have h2 : ¬ k = k1 := fun hh => h hh.symm
        simp [lookupA, h, ih, h2]

theorem updateA_keys {κ β : Type} [DecidableEq κ] (m : List (κ × β)) (k : κ) (v : β) :
    (updateA m k v).map Prod.fst
      = if k ∈ m.map Prod.fst then m.map Prod.fst else m.map Prod.fst ++ [k] := by
  induction m with
  | nil => simp [updateA]
  | cons p rest ih =>
      obtain ⟨k1, w⟩ := p
      by_cases h : k1 = k
      · subst h
        simp [updateA]
      · have h2 : ¬ k = k1 := fun hh => h hh.symm
        simp only [updateA, h, if_false, List.map_cons, ih]
        by_cases hm : k ∈ rest.map Prod.fst
        · simp [hm, h2]
        · simp [hm, h2]

theorem handlerMapAdd_keys (m : List (String × EventHandlerSet)) (kind hdl : String) :
    (handlerMapAdd m kind hdl).map Prod.fst
      = if kind ∈ m.map Prod.fst then m.map Prod.fst
        else m.map Prod.fst ++ [kind] := by
  unfold handlerMapAdd
  cases h : lookupA m kind with
  | none =>
      have hk : kind ∉ m.map Prod.fst := (lookupA_eq_none_iff m kind).mp h
      simp only []
      rw [updateA_keys, updateA_keys]
      simp [hk]
  | some hs =>
      have hk : kind ∈ m.map Prod.fst := by
        by_contra hc
        rw [(lookupA_eq_none_iff m kind).mpr hc] at h
        cases h
      simp only []
      rw [updateA_keys]

theorem handlerMapAdd_keys_nodup (m : List (String × EventHandlerSet))
    (kind hdl : String) (hm : (m.map Prod.fst).Nodup) :
    ((handlerMapAdd m kind hdl).map Prod.fst).Nodup := by
  rw [handlerMapAdd_keys]
  by_cases h : kind ∈ m.map Prod.fst
  · rw [if_pos h]
    exact hm
  · rw [if_neg h]
    rw [List.nodup_append]
    refine ⟨hm, List.nodup_singleton kind, ?_⟩
    intro x hx hx2
    rw [List.mem_singleton] at hx2
    subst hx2
    exact h hx

theorem pairsAt_append (kind : String) (l1 l2 : List (String × String)) :
    pairsAt kind (l1 ++ l2) = pairsAt kind l1 ++ pairsAt kind l2 := by
  simp [pairsAt, List.filter_append]

theorem pairsAt_map_self (k1 : String) (hs : List String) :
    pairsAt k1 (hs.map (fun h => (k1, h))) = hs := by
  induction hs with
  | nil => rfl
  | cons h rest ih => simp only [List.map_cons, pairsAt, List.filter_cons] at *; simp [ih]

theorem pairsAt_map_ne (kind k1 : String) (hs : List String) (hne : kind ≠ k1) :
    pairsAt kind (hs.map (fun h => (k1, h))) = [] := by
  have h2 : ¬ (k1 = kind) := fun hh => hne hh.symm
  induction hs with
  | nil => rfl
  | cons h rest ih =>
      simp only [List.map_cons, pairsAt, List.filter_cons] at ih ⊢
      rw [if_neg (by simp [h2])]
      exact ih

theorem subscriptionPairs_cons (k1 : String) (hs : EventHandlerSet)
    (rest : List (String × EventHandlerSet)) :
    subscriptionPairs ((k1, hs) :: rest)
      = hs.map (fun h => (k1, h)) ++ subscriptionPairs rest := by
  simp [subscriptionPairs]

theorem pairsAt_subscriptionPairs_notmem (kind : String)
    (m : List (String × EventHandlerSet)) (hk : kind ∉ m.map Prod.fst) :
    pairsAt kind (subscriptionPairs m) = [] := by
  induction m with
  | nil => rfl
  | cons p rest ih =>
      obtain ⟨k1, hs⟩ := p
      simp only [List.map_cons, List.mem_cons] at hk
      push_neg at hk
      rw [subscriptionPairs_cons, pairsAt_append, pairsAt_map_ne _ _ _ hk.1, ih hk.2]
      rfl

theorem pairsAt_subscriptionPairs (m : List (String × EventHandlerSet)) (kind : String)
    (hm : (m.map Prod.fst).Nodup) :
    pairsAt kind (subscriptionPairs m) = (lookupA m kind).getD [] := by
  induction m with
  | nil => rfl
  | cons p rest ih =>
      obtain ⟨k1, hs⟩ := p
      simp only [List.map_cons, List.nodup_cons] at hm
      rw [subscriptionPairs_cons, pairsAt_append]
      by_cases h : k1 = kind
      · subst h
        rw [pairsAt_map_self, pairsAt_subscriptionPairs_notmem _ _ hm.1]
        simp [lookupA]
      · rw [pairsAt_map_ne _ _ _ (fun hh => h hh.symm), ih hm.2]
        simp [lookupA, h]

theorem mem_of_mem_pairsAt (kind g : String) (l : List (String × String))
    (hg : g ∈ pairsAt kind l) : (kind, g) ∈ l := by
  unfold pairsAt at hg
  obtain ⟨p, hp, hsnd⟩ := List.mem_map.mp hg
  obtain ⟨hpl, hfst⟩ := List.mem_filter.mp hp
  have : p = (kind, g) := by
    obtain ⟨p1, p2⟩ := p
    simp only [decide_eq_true_eq] at hfst
    cases hfst
    cases hsnd
    rfl
  rw [this] at hpl
  exact hpl

/-! ### World projections for the cascade folds -/

theorem worldEvSubscribe_agent_self (w : World) (d : Nat) (kind hdl : String)
    (a : EventAgent) (ha : lookupA w.evAgents d = some a) :
    lookupA (worldEvSubscribe w d kind hdl).evAgents d = some (agentSubLocal a kind hdl) := by
  unfold worldEvSubscribe
  rw [ha]
  simp [lookupA_updateA_self, subscribe_agent_local]

theorem worldEvSubscribe_hub_self (w : World) (d : Nat) (kind hdl : String)
    (a : EventAgent) (ha : lookupA w.evAgents d = some a) :
    (worldEvSubscribe w d kind hdl).hub = w.hub.subscribe kind a.ref := by
  unfold worldEvSubscribe
  rw [ha]
  rfl

theorem worldEvSubscribe_agent_other (w : World) (s d : Nat) (kind hdl : String)
    (hne : s ≠ d) :
    lookupA (worldEvSubscribe w s kind hdl).evAgents d = lookupA w.evAgents d := by
  unfold worldEvSubscribe
  cases h : lookupA w.evAgents s with
  | none => rfl
  | some a =>
      simp only []
      rw [lookupA_updateA_ne _ _ _ _ (fun hh => hne hh.symm)]

theorem addFold_agent (ps : List (String × String)) (w : World) (d : Nat)
    (a : EventAgent) (ha : lookupA w.evAgents d = some a) :
    lookupA ((ps.foldl (fun acc p => worldEvSubscribe acc d p.1 p.2) w)).evAgents d
      = some (agentFold a ps) := by
  induction ps generalizing w a with
  | nil => exact ha
  | cons p rest ih =>
      rw [List.foldl_cons]
      exact ih _ _ (worldEvSubscribe_agent_self w d p.1 p.2 a ha)

theorem subsFold_agent_notmem (l : List Nat) (w : World) (d : Nat) (kind hdl : String)
    (hd : d ∉ l) :
    lookupA ((l.foldl (fun acc s => worldEvSubscribe acc s kind hdl) w)).evAgents d
      = lookupA w.evAgents d := by
  induction l generalizing w with
  | nil => rfl
  | cons s rest ih =>
      simp only [List.mem_cons] at hd
      push_neg at hd
      rw [List.foldl_cons, ih _ hd.2, worldEvSubscribe_agent_other _ _ _ _ _
        (fun hh => hd.1 hh.symm)]

theorem subsFold_agent_append (l : List Nat) (w : World) (d : Nat) (kind hdl : String)
    (a : EventAgent) (hd : d ∉ l) (ha : lookupA w.evAgents d = some a) :
    lookupA (((l ++ [d]).foldl (fun acc s => worldEvSubscribe acc s kind hdl) w)).evAgents d
      = some (agentSubLocal a kind hdl) := by
  rw [List.foldl_append, List.foldl_cons, List.foldl_nil]
  have hmid : lookupA ((l.foldl (fun acc s => worldEvSubscribe acc s kind hdl) w)).evAgents d
      = some a := by
    rw [subsFold_agent_notmem l w d kind hdl hd, ha]
  exact worldEvSubscribe_agent_self _ d kind hdl a hmid

/-! ### Hub routing established and preserved by the cascade folds -/

theorem mem_subAdd_self (ss : SubscriptionSet) (c : Nat) :
    c ∈ SubscriptionSet.Add ss c := by
  unfold SubscriptionSet.Add
  by_cases h : c ∈ ss <;> simp [h]

theorem mem_subAdd_mono (ss : SubscriptionSet) (c q : Nat) (hq : q ∈ ss) :
    q ∈ SubscriptionSet.Add ss c := by
  unfold SubscriptionSet.Add
  by_cases h : c ∈ ss <;> simp [h, hq]

theorem mem_subscribe_self (hub : Hub) (kind : String) (c : Nat) :
    c ∈ (hub.subscribe kind c).subscribedQueues kind := by
  unfold Hub.subscribedQueues
  rw [lookup_subscribe_self]
  exact mem_subAdd_self _ c

theorem mem_subscribe_mono (hub : Hub) (kind k2 : String) (c q : Nat)
    (hq : q ∈ hub.subscribedQueues kind) :
    q ∈ (hub.subscribe k2 c).subscribedQueues kind := by
  by_cases h : kind = k2
  · subst h
    unfold Hub.subscribedQueues at *
    rw [lookup_subscribe_self]
    exact mem_subAdd_mono _ c q hq
  · unfold Hub.subscribedQueues at *
    rw [lookup_subscribe_ne _ _ _ _ h]
    exact hq

theorem worldEvSubscribe_hub_mono (w : World) (s : Nat) (k2 h2 kind : String) (q : Nat)
    (hq : q ∈ w.hub.subscribedQueues kind) :
    q ∈ (worldEvSubscribe w s k2 h2).hub.subscribedQueues kind := by
  unfold worldEvSubscribe
  cases h : lookupA w.evAgents s with
  | none => exact hq
  | some a => exact mem_subscribe_mono _ _ _ _ _ hq

theorem addFold_hub_mono (ps : List (String × String)) (w : World) (d : Nat)
    (kind : String) (q : Nat) (hq : q ∈ w.hub.subscribedQueues kind) :
    q ∈ ((ps.foldl (fun acc p => worldEvSubscribe acc d p.1 p.2) w)).hub.subscribedQueues kind := by
  induction ps generalizing w with
  | nil => exact hq
  | cons p rest ih =>
      rw [List.foldl_cons]
      exact ih _ (worldEvSubscribe_hub_mono w d p.1 p.2 kind q hq)

theorem subsFold_hub_mono (l : List Nat) (w : World) (k2 h2 kind : String) (q : Nat)
    (hq : q ∈ w.hub.subscribedQueues kind) :
    q ∈ ((l.foldl (fun acc s => worldEvSubscribe acc s k2 h2) w)).hub.subscribedQueues kind := by
  induction l generalizing w with
  | nil => exact hq
  | cons s rest ih =>
      rw [List.foldl_cons]
      exact ih _ (worldEvSubscribe_hub_mono w s k2 h2 kind q hq)

theorem addFold_routes (ps : List (String × String)) (w : World) (d : Nat)
    (a : EventAgent) (ha : lookupA w.evAgents d = some a) :
    ∀ p ∈ ps, a.ref ∈
      ((ps.foldl (fun acc p => worldEvSubscribe acc d p.1 p.2) w)).hub.subscribedQueues p.1 := by
  induction ps generalizing w a with
  | nil => intro p hp; cases hp
  | cons p0 rest ih =>
      intro p hp
      rw [List.foldl_cons]
      have hag := worldEvSubscribe_agent_self w d p0.1 p0.2 a ha
      rcases List.mem_cons.mp hp with rfl | hm
      · apply addFold_hub_mono
        rw [worldEvSubscribe_hub_self w d p.1 p.2 a ha]
        exact mem_subscribe_self _ _ _
      · exact ih _ _ hag p hm

theorem subsFold_routes_append (l : List Nat) (w : World) (d : Nat)
    (kind hdl : String) (a : EventAgent) (hd : d ∉ l)
    (ha : lookupA w.evAgents d = some a) :
    a.ref ∈ (((l ++ [d]).foldl (fun acc s => worldEvSubscribe acc s kind hdl) w)).hub.subscribedQueues kind := by
  rw [List.foldl_append, List.foldl_cons, List.foldl_nil]
  have hmid : lookupA ((l.foldl (fun acc s => worldEvSubscribe acc s kind hdl) w)).evAgents d
      = some a := by
    rw [subsFold_agent_notmem l w d kind hdl hd, ha]
  rw [worldEvSubscribe_hub_self _ d kind hdl a hmid]
  exact mem_subscribe_self _ _ _

/-! ### Effects of the family-level operations, in composite form -/

theorem evSubscribe_fam (w : World) (k hdl : String) :
    (eventSubscriberSubscribe w k hdl).fam
      = ⟨w.fam.Messages,
         ⟨w.fam.Events.subscribers, handlerMapAdd w.fam.Events.subscriptions k hdl⟩⟩ := by
  unfold eventSubscriberSubscribe
  rw [foldl_fam_eq (fun acc (s : Nat) => worldEvSubscribe acc s k hdl)
    (fun w2 x => worldEvSubscribe_fam w2 x k hdl)]

theorem evAdd_fam (w : World) (d : Nat) (hd : d ∉ w.fam.Events.subscribers) :
    (eventSubscriberAdd w d).fam
      = ⟨w.fam.Messages,
         ⟨w.fam.Events.subscribers ++ [d], w.fam.Events.subscriptions⟩⟩ := by
  unfold eventSubscriberAdd
  rw [if_neg hd]
  simp only []
  rw [foldl_fam_eq (fun acc (p : String × String) => worldEvSubscribe acc d p.1 p.2)
    (fun w2 x => worldEvSubscribe_fam w2 d x.1 x.2)]

theorem evAdd_agent (w : World) (d : Nat) (a : EventAgent)
    (hd : d ∉ w.fam.Events.subscribers) (ha : lookupA w.evAgents d = some a) :
    lookupA (eventSubscriberAdd w d).evAgents d
      = some (agentFold a (subscriptionPairs w.fam.Events.subscriptions)) := by
  unfold eventSubscriberAdd
  rw [if_neg hd]
  exact addFold_agent _ _ _ _ ha

theorem evAdd_hub_routes (w : World) (d : Nat) (a : EventAgent)
    (hd : d ∉ w.fam.Events.subscribers) (ha : lookupA w.evAgents d = some a) :
    ∀ p ∈ subscriptionPairs w.fam.Events.subscriptions,
      a.ref ∈ (eventSubscriberAdd w d).hub.subscribedQueues p.1 := by
  unfold eventSubscriberAdd
  rw [if_neg hd]
  exact addFold_routes _ _ _ _ ha

theorem evAdd_hub_mono (w : World) (d : Nat) (kind : String) (q : Nat)
    (hq : q ∈ w.hub.subscribedQueues kind) :
    q ∈ (eventSubscriberAdd w d).hub.subscribedQueues kind := by
  unfold eventSubscriberAdd
  by_cases hd : d ∈ w.fam.Events.subscribers
  · rw [if_pos hd]
    exact hq
  · rw [if_neg hd]
    exact addFold_hub_mono _ _ _ _ _ hq

theorem evSubscribe_agent_notmem (w : World) (k hdl : String) (d : Nat)
    (hd : d ∉ w.fam.Events.subscribers) :
    lookupA (eventSubscriberSubscribe w k hdl).evAgents d = lookupA w.evAgents d := by
  unfold eventSubscriberSubscribe
  exact subsFold_agent_notmem _ _ _ _ _ hd

theorem evSubscribe_hub_mono (w : World) (k hdl kind : String) (q : Nat)
    (hq : q ∈ w.hub.subscribedQueues kind) :
    q ∈ (eventSubscriberSubscribe w k hdl).hub.subscribedQueues kind := by
  unfold eventSubscriberSubscribe
  exact subsFold_hub_mono _ _ _ _ _ _ hq

theorem evSubscribe_agent_append (w : World) (k hdl : String) (d : Nat) (E : List Nat)
    (a : EventAgent) (hsubs : w.fam.Events.subscribers = E ++ [d]) (hdE : d ∉ E)
    (ha : lookupA w.evAgents d = some a) :
    lookupA (eventSubscriberSubscribe w k hdl).evAgents d
      = some (agentSubLocal a k hdl) := by
  show lookupA ((w.fam.Events.subscribers.foldl (fun acc s => worldEvSubscribe acc s k hdl)
      { w with fam := { w.fam with Events :=
          { w.fam.Events with
            subscriptions := handlerMapAdd w.fam.Events.subscriptions k hdl } } })).evAgents d
    = some (agentSubLocal a k hdl)
  rw [hsubs]
  exact subsFold_agent_append E _ d k hdl a hdE ha

theorem evSubscribe_routes_append (w : World) (k hdl : String) (d : Nat) (E : List Nat)
    (a : EventAgent) (hsubs : w.fam.Events.subscribers = E ++ [d]) (hdE : d ∉ E)
    (ha : lookupA w.evAgents d = some a) :
    a.ref ∈ (eventSubscriberSubscribe w k hdl).hub.subscribedQueues k := by
  show a.ref ∈ ((w.fam.Events.subscribers.foldl (fun acc s => worldEvSubscribe acc s k hdl)
      { w with fam := { w.fam with Events :=
          { w.fam.Events with
            subscriptions := handlerMapAdd w.fam.Events.subscriptions k hdl } } })).hub.subscribedQueues k
  rw [hsubs]
  exact subsFold_routes_append E _ d k hdl a hdE ha

theorem orderA_agent (w : World) (d : Nat) (a : EventAgent) (k hdl : String)
    (hd : d ∉ w.fam.Events.subscribers) (ha : lookupA w.evAgents d = some a) :
    lookupA (eventSubscriberAdd (eventSubscriberSubscribe w k hdl) d).evAgents d
      = some (agentFold a
          (subscriptionPairs (handlerMapAdd w.fam.Events.subscriptions k hdl))) := by
  have hfam := evSubscribe_fam w k hdl
  have hd2 : d ∉ (eventSubscriberSubscribe w k hdl).fam.Events.subscribers := by
    rw [hfam]
    exact hd
  have ha2 : lookupA (eventSubscriberSubscribe w k hdl).evAgents d = some a := by
    rw [evSubscribe_agent_notmem w k hdl d hd, ha]
  have hres := evAdd_agent _ d a hd2 ha2
  rw [hfam] at hres
  exact hres

theorem orderA_fam (w : World) (d : Nat) (k hdl : String)
    (hd : d ∉ w.fam.Events.subscribers) :
    (eventSubscriberAdd (eventSubscriberSubscribe w k hdl) d).fam
      = ⟨w.fam.Messages,
         ⟨w.fam.Events.subscribers ++ [d],
          handlerMapAdd w.fam.Events.subscriptions k hdl⟩⟩ := by
  have hfam := evSubscribe_fam w k hdl
  have hd2 : d ∉ (eventSubscriberSubscribe w k hdl).fam.Events.subscribers := by
    rw [hfam]
    exact hd
  rw [evAdd_fam _ d hd2, hfam]

theorem orderA_routes (w : World) (d : Nat) (a : EventAgent) (k hdl : String)
    (hd : d ∉ w.fam.Events.subscribers) (ha : lookupA w.evAgents d = some a) :
    ∀ p ∈ subscriptionPairs (handlerMapAdd w.fam.Events.subscriptions k hdl),
      a.ref ∈ (eventSubscriberAdd (eventSubscriberSubscribe w k hdl) d).hub.subscribedQueues p.1 := by
  have hfam := evSubscribe_fam w k hdl
  have hd2 : d ∉ (eventSubscriberSubscribe w k hdl).fam.Events.subscribers := by
    rw [hfam]
    exact hd
  have ha2 : lookupA (eventSubscriberSubscribe w k hdl).evAgents d = some a := by
    rw [evSubscribe_agent_notmem w k hdl d hd, ha]
  have hres := evAdd_hub_routes _ d a hd2 ha2
  rw [hfam] at hres
  exact hres

theorem orderB_agent (w : World) (d : Nat) (a : EventAgent) (k hdl : String)
    (hd : d ∉ w.fam.Events.subscribers) (ha : lookupA w.evAgents d = some a) :
    lookupA (eventSubscriberSubscribe (eventSubscriberAdd w d) k hdl).evAgents d
      = some (agentFold a
          (subscriptionPairs w.fam.Events.subscriptions ++ [(k, hdl)])) := by
  have hfam1 := evAdd_fam w d hd
  have hsubs : (eventSubscriberAdd w d).fam.Events.subscribers
      = w.fam.Events.subscribers ++ [d] := by
    rw [hfam1]
  have ha1 := evAdd_agent w d a hd ha
  have hres := evSubscribe_agent_append (eventSubscriberAdd w d) k hdl d
    w.fam.Events.subscribers _ hsubs hd ha1
  rw [hres, agentFold_append]
  rfl

theorem orderB_fam (w : World) (d : Nat) (k hdl : String)
    (hd : d ∉ w.fam.Events.subscribers) :
    (eventSubscriberSubscribe (eventSubscriberAdd w d) k hdl).fam
      = ⟨w.fam.Messages,
         ⟨w.fam.Events.subscribers ++ [d],
          handlerMapAdd w.fam.Events.subscriptions k hdl⟩⟩ := by
  rw [evSubscribe_fam, evAdd_fam w d hd]

theorem orderB_routes_of_pairs (w : World) (d : Nat) (a : EventAgent) (k hdl : String)
    (hd : d ∉ w.fam.Events.subscribers) (ha : lookupA w.evAgents d = some a) :
    ∀ p ∈ subscriptionPairs w.fam.Events.subscriptions,
      a.ref ∈ (eventSubscriberSubscribe (eventSubscriberAdd w d) k hdl).hub.subscribedQueues p.1 := by
  intro p hp
  exact evSubscribe_hub_mono _ k hdl p.1 a.ref (evAdd_hub_routes w d a hd ha p hp)

theorem orderB_routes_new (w : World) (d : Nat) (a : EventAgent) (k hdl : String)
    (hd : d ∉ w.fam.Events.subscribers) (ha : lookupA w.evAgents d = some a) :
    a.ref ∈ (eventSubscriberSubscribe (eventSubscriberAdd w d) k hdl).hub.subscribedQueues k := by
  have hfam1 := evAdd_fam w d hd
  have hsubs : (eventSubscriberAdd w d).fam.Events.subscribers
      = w.fam.Events.subscribers ++ [d] := by
    rw [hfam1]
  have ha1 := evAdd_agent w d a hd ha
  have hres := evSubscribe_routes_append (eventSubscriberAdd w d) k hdl d
    w.fam.Events.subscribers _ hsubs hd ha1
  rw [agentFold_ref] at hres
  exact hres

theorem isEmpty_false_of_ne_nil {α : Type} (l : List α) (h : l ≠ []) :
    l.isEmpty = false := by
  cases l with
  | nil => exact absurd rfl h
  | cons x xs => rfl

theorem subscriptionPairs_handlerMapAdd_ne_nil (S : List (String × EventHandlerSet))
    (k hdl : String) (hkeys : (S.map Prod.fst).Nodup) :
    subscriptionPairs (handlerMapAdd S k hdl) ≠ [] := by
  intro hcon
  have h1 := pairsAt_subscriptionPairs (handlerMapAdd S k hdl) k
    (handlerMapAdd_keys_nodup S k hdl hkeys)
  rw [hcon, lookupA_handlerMapAdd_self] at h1
  simp only [pairsAt, List.filter_nil, List.map_nil, Option.getD_some] at h1
  exact setAdd_ne_nil _ hdl h1.symm

/-- Extensional equality of event-agent states: identical identity, delegate,
listening flag, and per-kind handler-set contents (the Go handler map carries
no order). -/
def agentStateEq (x y : EventAgent) : Prop :=
  x.ref = y.ref ∧ x.Delegate = y.Delegate ∧ x.ready = y.ready ∧
    ∀ kind, lookupA x.subscriptions kind = lookupA y.subscriptions kind

/-- Delegate `d` is subscribed to every handler of every kind of the family's
event subscription map: each such handler is registered on `d`'s own event
agent and the hub routes the kind to `d`'s queue. -/
def memberSubscribed (w : World) (d : Nat) : Prop :=
  ∀ kind hs, lookupA w.fam.Events.subscriptions kind = some hs →
    ∀ g ∈ hs, ∃ ag, lookupA w.evAgents d = some ag ∧
      g ∈ handlersFor ag kind ∧ ag.ref ∈ w.hub.subscribedQueues kind

/-- Claim C3 (amended): for a delegate `d` (with an event agent) not yet a
member, `Family.Subscribe(k, h)` before `Add(d)` and `Add(d)` before
`Family.Subscribe(k, h)` produce the same final family state and extensionally
equal final states of `d`'s event agent, and in both orders the new member
ends up with every handler of every kind of the family's event subscription
map registered on its agent and routed by the hub — equivalently, subscribed
to every kind that has at least one handler; a kind whose handler set is
empty subscribes nothing. -/
theorem C3_subscribe_add_commute (w : World) (d : Nat) (a : EventAgent) (k hdl : String)
    (ha : lookupA w.evAgents d = some a)
    (hd : d ∉ w.fam.Events.subscribers)
    (hkeys : (w.fam.Events.subscriptions.map Prod.fst).Nodup) :
    (∃ aA aB,
      lookupA (eventSubscriberAdd (eventSubscriberSubscribe w k hdl) d).evAgents d
        = some aA ∧
      lookupA (eventSubscriberSubscribe (eventSubscriberAdd w d) k hdl).evAgents d
        = some aB ∧
      agentStateEq aA aB) ∧
    (eventSubscriberAdd (eventSubscriberSubscribe w k hdl) d).fam
      = (eventSubscriberSubscribe (eventSubscriberAdd w d) k hdl).fam ∧
    memberSubscribed (eventSubscriberAdd (eventSubscriberSubscribe w k hdl) d) d ∧
    memberSubscribed (eventSubscriberSubscribe (eventSubscriberAdd w d) k hdl) d := by
  have hkeys2 := handlerMapAdd_keys_nodup w.fam.Events.subscriptions k hdl hkeys
  have haA := orderA_agent w d a k hdl hd ha
  have haB := orderB_agent w d a k hdl hd ha
  have hfamA : (eventSubscriberAdd (eventSubscriberSubscribe w k hdl) d).fam.Events.subscriptions
      = handlerMapAdd w.fam.Events.subscriptions k hdl := by
    rw [orderA_fam w d k hdl hd]
  have hfamB : (eventSubscriberSubscribe (eventSubscriberAdd w d) k hdl).fam.Events.subscriptions
      = handlerMapAdd w.fam.Events.subscriptions k hdl := by
    rw [orderB_fam w d k hdl hd]
  have hlookEq : ∀ kind,
      lookupA (agentFold a
        (subscriptionPairs (handlerMapAdd w.fam.Events.subscriptions k hdl))).subscriptions kind
      = lookupA (agentFold a
        (subscriptionPairs w.fam.Events.subscriptions ++ [(k, hdl)])).subscriptions kind := by
    intro kind
    rw [agentFold_lookup, agentFold_lookup, pairsAt_append]
    by_cases hkk : kind = k
    · subst hkk
      rw [pairsAt_subscriptionPairs _ kind hkeys2,
        pairsAt_subscriptionPairs _ kind hkeys, lookupA_handlerMapAdd_self]
      have hsingle : pairsAt kind [(kind, hdl)] = [hdl] := by simp [pairsAt]
      rw [hsingle]
      simp only [Option.getD_some]
      by_cases hmem : hdl ∈ (lookupA w.fam.Events.subscriptions kind).getD []
      · rw [setAdd_mem_noop _ _ hmem, applyAdds_append_mem _ _ _ hmem]
      · unfold EventHandlerSet.Add
        rw [if_neg hmem]
    · have hkk2 : ¬ k = kind := fun hh => hkk hh.symm
      have hempty : pairsAt kind [(k, hdl)] = [] := by simp [pairsAt, hkk2]
      rw [hempty, List.append_nil,
        pairsAt_subscriptionPairs _ kind hkeys2,
        pairsAt_subscriptionPairs _ kind hkeys,
        lookupA_handlerMapAdd_ne _ _ _ _ hkk]
  refine ⟨⟨_, _, haA, haB, ?_, ?_, ?_, hlookEq⟩, ?_, ?_, ?_⟩
  · rw [agentFold_ref, agentFold_ref]
  · rw [agentFold_Delegate, agentFold_Delegate]
  · rw [agentFold_ready, agentFold_ready,
      isEmpty_false_of_ne_nil _ (subscriptionPairs_handlerMapAdd_ne_nil _ k hdl hkeys),
      isEmpty_false_of_ne_nil _
        (by simp : subscriptionPairs w.fam.Events.subscriptions ++ [(k, hdl)] ≠ [])]
  · rw [orderA_fam w d k hdl hd, orderB_fam w d k hdl hd]
  · intro kind hs hlk g hg
    rw [hfamA] at hlk
    have hp : pairsAt kind
        (subscriptionPairs (handlerMapAdd w.fam.Events.subscriptions k hdl)) = hs := by
      rw [pairsAt_subscriptionPairs _ kind hkeys2, hlk]
      rfl
    refine ⟨_, haA, ?_, ?_⟩
    · unfold handlersFor
      rw [agentFold_lookup, hp]
      obtain ⟨v2, hv2, hgv⟩ := mem_applyAdds_of_ops _ hs g hg
      rw [hv2]
      exact hgv
    · rw [agentFold_ref]
      have hgp : (kind, g) ∈ subscriptionPairs (handlerMapAdd w.fam.Events.subscriptions k hdl) :=
        mem_of_mem_pairsAt kind g _ (by rw [hp]; exact hg)
      exact orderA_routes w d a k hdl hd ha (kind, g) hgp
  · intro kind hs hlk g hg
    rw [hfamB] at hlk
    have hp : pairsAt kind
        (subscriptionPairs (handlerMapAdd w.fam.Events.subscriptions k hdl)) = hs := by
      rw [pairsAt_subscriptionPairs _ kind hkeys2, hlk]
      rfl
    refine ⟨_, haB, ?_, ?_⟩
    · unfold handlersFor
      rw [← hlookEq kind, agentFold_lookup, hp]
      obtain ⟨v2, hv2, hgv⟩ := mem_applyAdds_of_ops _ hs g hg
      rw [hv2]
      exact hgv
    · rw [agentFold_ref]
      by_cases hkk : kind = k
      · subst hkk
        rw [lookupA_handlerMapAdd_self] at hlk
        injection hlk with hlk2
        rw [← hlk2] at hg
        rcases (mem_setAdd_iff _ g hdl).mp hg with hgs | rfl
        · have hgp : (kind, g) ∈ subscriptionPairs w.fam.Events.subscriptions :=
            mem_of_mem_pairsAt kind g _
              (by rw [pairsAt_subscriptionPairs _ kind hkeys]; exact hgs)
          exact orderB_routes_of_pairs w d a kind hdl hd ha (kind, g) hgp
        · exact orderB_routes_new w d a kind g hd ha
      · rw [lookupA_handlerMapAdd_ne _ _ _ _ hkk] at hlk
        have hgp : (kind, g) ∈ subscriptionPairs w.fam.Events.subscriptions :=
          mem_of_mem_pairsAt kind g _
            (by rw [pairsAt_subscriptionPairs _ kind hkeys, hlk]; exact hg)
        exact orderB_routes_of_pairs w d a k hdl hd ha (kind, g) hgp

/-- Claim C3 (counterexample): the family's event subscription map can hold a
kind with an empty handler set (`Subscribe("x","g")` then `Unsubscribe("x","g")`
leaves the entry `x ↦ \x7b\x7d`); after `Family.Subscribe("k","h")` and `Add(0)`,
kind `x` is in the family's subscription sets, yet the new member's agent has
no handler for `x` and the hub does not route `x` to the member's queue — the
member did not "end up subscribed to every kind in the family's subscription
sets". -/
theorem C3_counterexample :
    lookupA (eventSubscriberAdd (eventSubscriberSubscribe
        (eventSubscriberUnsubscribe (eventSubscriberSubscribe
          ⟨⟨"H", []⟩, [(0, ⟨0, none, false, []⟩)], [], ⟨⟨[], []⟩, ⟨[], []⟩⟩⟩
          "x" "g") "x" "g") "k" "h") 0).fam.Events.subscriptions "x" = some [] ∧
    0 ∈ (eventSubscriberAdd (eventSubscriberSubscribe
        (eventSubscriberUnsubscribe (eventSubscriberSubscribe
          ⟨⟨"H", []⟩, [(0, ⟨0, none, false, []⟩)], [], ⟨⟨[], []⟩, ⟨[], []⟩⟩⟩
          "x" "g") "x" "g") "k" "h") 0).fam.Events.subscribers ∧
    (lookupA (eventSubscriberAdd (eventSubscriberSubscribe
        (eventSubscriberUnsubscribe (eventSubscriberSubscribe
          ⟨⟨"H", []⟩, [(0, ⟨0, none, false, []⟩)], [], ⟨⟨[], []⟩, ⟨[], []⟩⟩⟩
          "x" "g") "x" "g") "k" "h") 0).evAgents 0).map
        (fun ag => handlersFor ag "x") = some [] ∧
    0 ∉ (eventSubscriberAdd (eventSubscriberSubscribe
        (eventSubscriberUnsubscribe (eventSubscriberSubscribe
          ⟨⟨"H", []⟩, [(0, ⟨0, none, false, []⟩)], [], ⟨⟨[], []⟩, ⟨[], []⟩⟩⟩
          "x" "g") "x" "g") "k" "h") 0).hub.subscribedQueues "x" := by
  refine ⟨rfl, ?_, rfl, ?_⟩ <;> decide

/-- Claim C3 (witness for the amended theorem): a world with one existing
member `1` (subscribed to kind `y`) and a joining delegate `0`. -/
theorem C3_subscribe_add_commute_witness :
    (∃ aA aB,
      lookupA (eventSubscriberAdd (eventSubscriberSubscribe
          ⟨⟨"H", [("y", [1])]⟩, [(0, ⟨0, none, false, []⟩), (1, ⟨1, none, true, [("y", ["g"])]⟩)],
            [], ⟨⟨[], []⟩, ⟨[1], [("y", ["g"])]⟩⟩⟩ "k" "h") 0).evAgents 0 = some aA ∧
      lookupA (eventSubscriberSubscribe (eventSubscriberAdd
          ⟨⟨"H", [("y", [1])]⟩, [(0, ⟨0, none, false, []⟩), (1, ⟨1, none, true, [("y", ["g"])]⟩)],
            [], ⟨⟨[], []⟩, ⟨[1], [("y", ["g"])]⟩⟩⟩ 0) "k" "h").evAgents 0 = some aB ∧
      agentStateEq aA aB) ∧
    (eventSubscriberAdd (eventSubscriberSubscribe
        ⟨⟨"H", [("y", [1])]⟩, [(0, ⟨0, none, false, []⟩), (1, ⟨1, none, true, [("y", ["g"])]⟩)],
          [], ⟨⟨[], []⟩, ⟨[1], [("y", ["g"])]⟩⟩⟩ "k" "h") 0).fam
      = (eventSubscriberSubscribe (eventSubscriberAdd
        ⟨⟨"H", [("y", [1])]⟩, [(0, ⟨0, none, false, []⟩), (1, ⟨1, none, true, [("y", ["g"])]⟩)],
          [], ⟨⟨[], []⟩, ⟨[1], [("y", ["g"])]⟩⟩⟩ 0) "k" "h").fam ∧
    memberSubscribed (eventSubscriberAdd (eventSubscriberSubscribe
        ⟨⟨"H", [("y", [1])]⟩, [(0, ⟨0, none, false, []⟩), (1, ⟨1, none, true, [("y", ["g"])]⟩)],
          [], ⟨⟨[], []⟩, ⟨[1], [("y", ["g"])]⟩⟩⟩ "k" "h") 0) 0 ∧
    memberSubscribed (eventSubscriberSubscribe (eventSubscriberAdd
        ⟨⟨"H", [("y", [1])]⟩, [(0, ⟨0, none, false, []⟩), (1, ⟨1, none, true, [("y", ["g"])]⟩)],
          [], ⟨⟨[], []⟩, ⟨[1], [("y", ["g"])]⟩⟩⟩ 0) "k" "h") 0 :=
  C3_subscribe_add_commute
    ⟨⟨"H", [("y", [1])]⟩, [(0, ⟨0, none, false, []⟩), (1, ⟨1, none, true, [("y", ["g"])]⟩)],
      [], ⟨⟨[], []⟩, ⟨[1], [("y", ["g"])]⟩⟩⟩
    0 ⟨0, none, false, []⟩ "k" "h" (by decide) (by decide) (by decide)

end Artemis
